import Mathlib

/-!
Verification development for the conversational intake assistant
(`src/lambda`): conversation routing, approval pipeline, message buffering,
deadline parsing, enrichment worker and outbound delivery.

The Python sources are embedded shallowly: every service method that the
properties below talk about becomes an executable Lean definition over
explicit state (lists standing for the DynamoDB tables, oracles standing
for external AI / network calls).  Timestamps that Python keeps as ISO
strings ordered lexicographically are modelled as natural numbers with the
same order; character-level string operations mirror Python `str`
semantics on the `List Char` representation of `String`.
-/

namespace AIA

/-! ## Python string primitives

Python `str` methods used by the sources, modelled on `String.data`.
The whitespace set approximates Python's (ASCII whitespace plus NBSP and
the ideographic space, the variants that occur in this codebase's data).
-/

/-- Whitespace characters recognised by `str.strip()` / `\s` (the subset
relevant to this codebase: ASCII whitespace, NBSP, ideographic space). -/
def wsChars : List Char := [' ', '\t', '\n', '\r', '\x0b', '\x0c', ' ', '　']

/-- Whether `c` is (modelled) Python whitespace. -/
def isWs (c : Char) : Bool := wsChars.contains c

/-- Drop leading characters satisfying `p` (Python `lstrip` family). -/
def stripLWhile (p : Char → Bool) (l : List Char) : List Char := l.dropWhile p

/-- Drop trailing characters satisfying `p` (Python `rstrip` family). -/
def stripRWhile (p : Char → Bool) (l : List Char) : List Char :=
  (l.reverse.dropWhile p).reverse

/-- Python `s.strip()`. -/
def pyStrip (s : String) : String :=
  String.mk (stripRWhile isWs (stripLWhile isWs s.data))

/-- Python `s.lstrip(chars)` for a character set. -/
def pyLStripSet (set : List Char) (s : String) : String :=
  String.mk (stripLWhile (fun c => set.contains c) s.data)

/-- Python `s.rstrip(chars)` for a character set. -/
def pyRStripSet (set : List Char) (s : String) : String :=
  String.mk (stripRWhile (fun c => set.contains c) s.data)

/-- Python `s.startswith(pre)`. -/
def pyStartsWith (s pre : String) : Bool := pre.data.isPrefixOf s.data

/-- Python `s.endswith(suf)`. -/
def pyEndsWith (s suf : String) : Bool := suf.data.reverse.isPrefixOf s.data.reverse

/-- Whether `pat` occurs as a contiguous sublist of `l`. -/
def listIsInfix (pat l : List Char) : Bool :=
  match l with
  | [] => pat.isEmpty
  | _ :: t => pat.isPrefixOf l || listIsInfix pat t

/-- Python `sub in s`. -/
def pyContains (s sub : String) : Bool := listIsInfix sub.data s.data

/-- Python `s[:n]` (character slicing). -/
def pyTake (n : Nat) (s : String) : String := String.mk (s.data.take n)

/-- Python `s[n:]` (character slicing). -/
def pyDrop (n : Nat) (s : String) : String := String.mk (s.data.drop n)

/-- Fuel-driven core of `replaceList` (structural recursion so that the
kernel can evaluate it; with fuel at least the input length and a
non-empty pattern the fuel never runs out, as each step consumes at
least one character). -/
def replaceListAux (pat rep : List Char) : Nat → List Char → List Char
  | 0, s => s
  | _ + 1, [] => []
  | fuel + 1, c :: rest =>
    if pat.isPrefixOf (c :: rest) then
      rep ++ replaceListAux pat rep fuel ((c :: rest).drop pat.length)
    else
      c :: replaceListAux pat rep fuel rest

/-- Non-overlapping left-to-right replacement on character lists
(Python `str.replace`; the sources never call it with an empty pattern,
for which we return the input unchanged). -/
def replaceList (pat rep : List Char) (s : List Char) : List Char :=
  if pat.isEmpty then s else replaceListAux pat rep s.length s

/-- Python `s.replace(pat, rep)`. -/
def pyReplace (s pat rep : String) : String :=
  String.mk (replaceList pat.data rep.data s.data)

/-- Python `str.split(sep, 1)`: the part before the first occurrence of the
separator character, and (when the separator occurs) the remainder. -/
def splitOnceChar (sep : Char) : List Char → List Char × Option (List Char)
  | [] => ([], none)
  | c :: rest =>
    if c = sep then ([], some rest)
    else
      let (a, b) := splitOnceChar sep rest
      (c :: a, b)

/-- Python `s.split(sep, 1)` on a string, for a one-character separator. -/
def pySplitOnce (sep : Char) (s : String) : String × Option String :=
  let (a, b) := splitOnceChar sep s.data
  (String.mk a, b.map String.mk)

/-- Fuel-driven core of `splitWsList` (structural recursion; fuel at
least the input length suffices, as each step consumes at least one
character). -/
def splitWsListAux : Nat → List Char → List (List Char)
  | 0, _ => []
  | _ + 1, [] => []
  | fuel + 1, c :: rest =>
    if isWs c then splitWsListAux fuel rest
    else
      (c :: rest.takeWhile (fun d => !isWs d)) ::
        splitWsListAux fuel (rest.dropWhile (fun d => !isWs d))

/-- Python `s.split()` (split on whitespace runs, dropping empty parts). -/
def splitWsList (l : List Char) : List (List Char) := splitWsListAux l.length l

/-- Python `s.split()` on a string. -/
def pySplitWs (s : String) : List String := (splitWsList s.data).map String.mk

/-- ASCII lowercasing (Python `str.lower`, restricted to the ASCII letters:
the only characters whose case matters to the sources' order-id regex). -/
def charLowerAscii (c : Char) : Char :=
  if 'A' ≤ c ∧ c ≤ 'Z' then Char.ofNat (c.toNat + 32) else c

/-- Python `s.lower()` (ASCII model). -/
def pyLower (s : String) : String := String.mk (s.data.map charLowerAscii)

/-- Python `'sep'.join(parts)` for a string separator. -/
def pyJoin (sep : String) (parts : List String) : String :=
  match parts with
  | [] => ""
  | p :: rest => rest.foldl (fun acc q => acc ++ sep ++ q) p

/-- Digit value of an ASCII digit character. -/
def digitVal (c : Char) : Nat := c.toNat - 48

/-! ## Regex-style matchers

`utils/parsers.py` works with a handful of concrete regular expressions.
Each is embedded as a direct backtracking matcher with Python's
leftmost-match, greedy/lazy preference order.  `\d` is modelled as the
ASCII digits (the only digits this codebase's data contains). -/

/-- Try candidate partial matches in preference order, with continuation. -/
def tryCands {α : Type} (cs : List (Nat × List Char)) (k : Nat → List Char → Option α) :
    Option α :=
  match cs with
  | [] => none
  | (v, r) :: t =>
    match k v r with
    | some x => some x
    | none => tryCands t k

/-- Candidates for `(\d{1,2})` at the head of the input, greedy first:
the numeric group value paired with the remaining input. -/
def d12cands : List Char → List (Nat × List Char)
  | [] => []
  | [a] => if a.isDigit then [(digitVal a, [])] else []
  | a :: b :: r =>
    if a.isDigit then
      if b.isDigit then
        [(digitVal a * 10 + digitVal b, r), (digitVal a, b :: r)]
      else [(digitVal a, b :: r)]
    else []

/-- Match `(\d{1,2}):(\d{2})` at the head of the input. -/
def hmSuffix (l : List Char) : Option (Nat × Nat) :=
  tryCands (d12cands l) fun h r =>
    match r with
    | ':' :: a :: b :: _ =>
      if a.isDigit && b.isDigit then some (h, digitVal a * 10 + digitVal b) else none
    | _ => none

/-- Match `(\d{1,2})時` at the head of the input. -/
def hSuffix (l : List Char) : Option Nat :=
  tryCands (d12cands l) fun h r =>
    match r with
    | '時' :: _ => some h
    | _ => none

/-- Lazy gap `.*?` before a suffix matcher: try the shortest gap first,
never crossing a newline (`.` does not match `\n`). -/
def lazyGap {α : Type} (f : List Char → Option α) : List Char → Option α
  | [] => f []
  | c :: r =>
    match f (c :: r) with
    | some x => some x
    | none => if c = '\n' then none else lazyGap f r

/-- One match of a date pattern: month, day, optional hour, minute. -/
structure DMatch where
  month : Nat
  day : Nat
  hour : Option Nat
  minute : Nat
deriving DecidableEq

/-- Match `(\d{1,2})/(\d{1,2}).*?(\d{1,2}):(\d{2})` at the head. -/
def pat1At (l : List Char) : Option DMatch :=
  tryCands (d12cands l) fun mo r1 =>
    match r1 with
    | '/' :: r2 =>
      tryCands (d12cands r2) fun d r3 =>
        (lazyGap hmSuffix r3).map fun hm => ⟨mo, d, some hm.1, hm.2⟩
    | _ => none

/-- Match `(\d{1,2})月(\d{1,2})日.*?(\d{1,2}):(\d{2})` at the head. -/
def pat2At (l : List Char) : Option DMatch :=
  tryCands (d12cands l) fun mo r1 =>
    match r1 with
    | '月' :: r2 =>
      tryCands (d12cands r2) fun d r3 =>
        match r3 with
        | '日' :: r4 => (lazyGap hmSuffix r4).map fun hm => ⟨mo, d, some hm.1, hm.2⟩
        | _ => none
    | _ => none

/-- Match `(\d{1,2})/(\d{1,2}).*?(\d{1,2})時` at the head. -/
def pat3At (l : List Char) : Option DMatch :=
  tryCands (d12cands l) fun mo r1 =>
    match r1 with
    | '/' :: r2 =>
      tryCands (d12cands r2) fun d r3 =>
        (lazyGap hSuffix r3).map fun h => ⟨mo, d, some h, 0⟩
    | _ => none

/-- Match `(\d{1,2})月(\d{1,2})日.*?(\d{1,2})時` at the head. -/
def pat4At (l : List Char) : Option DMatch :=
  tryCands (d12cands l) fun mo r1 =>
    match r1 with
    | '月' :: r2 =>
      tryCands (d12cands r2) fun d r3 =>
        match r3 with
        | '日' :: r4 => (lazyGap hSuffix r4).map fun h => ⟨mo, d, some h, 0⟩
        | _ => none
    | _ => none

/-- Match `(\d{1,2})/(\d{1,2})` at the head. -/
def pat5At (l : List Char) : Option DMatch :=
  tryCands (d12cands l) fun mo r1 =>
    match r1 with
    | '/' :: r2 =>
      tryCands (d12cands r2) fun d _ => some ⟨mo, d, none, 0⟩
    | _ => none

/-- Match `(\d{1,2})月(\d{1,2})日` at the head. -/
def pat6At (l : List Char) : Option DMatch :=
  tryCands (d12cands l) fun mo r1 =>
    match r1 with
    | '月' :: r2 =>
      tryCands (d12cands r2) fun d r3 =>
        match r3 with
        | '日' :: _ => some ⟨mo, d, none, 0⟩
        | _ => none
    | _ => none

/-- `re.search`: try the matcher at successive start positions. -/
def searchAt {α : Type} (f : List Char → Option α) : List Char → Option α
  | [] => f []
  | c :: r =>
    match f (c :: r) with
    | some x => some x
    | none => searchAt f r

/-- Match `(\d{1,2})[時:](\d{0,2})` at the head (minute 0 for an empty
second group, as the caller converts an empty group to 0). -/
def timeAt (l : List Char) : Option (Nat × Nat) :=
  tryCands (d12cands l) fun h r =>
    match r with
    | s :: r2 =>
      if s = '時' ∨ s = ':' then
        match r2 with
        | a :: b :: _ =>
          if a.isDigit && b.isDigit then some (h, digitVal a * 10 + digitVal b)
          else if a.isDigit then some (h, digitVal a)
          else some (h, 0)
        | [a] => if a.isDigit then some (h, digitVal a) else some (h, 0)
        | [] => some (h, 0)
      else none
    | [] => none

/-! ## `utils/parsers.py` -/

/-- A wall-clock instant (JST), the fields of `datetime.now(jst)` that
`parsers.py` reads. -/
structure PyDateTime where
  year : Nat
  month : Nat
  day : Nat
  hour : Nat
deriving DecidableEq

/-- Gregorian leap year. -/
def isLeap (y : Nat) : Bool := y % 4 = 0 && (y % 100 ≠ 0 || y % 400 = 0)

/-- Days in a month. -/
def daysInMonth (y m : Nat) : Nat :=
  if m = 2 then (if isLeap y then 29 else 28)
  else if m = 4 ∨ m = 6 ∨ m = 9 ∨ m = 11 then 30
  else 31

/-- The day after a given calendar date. -/
def nextDate : Nat × Nat × Nat → Nat × Nat × Nat
  | (y, m, d) =>
    if d < daysInMonth y m then (y, m, d + 1)
    else if m < 12 then (y, m + 1, 1)
    else (y + 1, 1, 1)

/-- Add `n` days to a calendar date (`now + timedelta(days=n)`). -/
def addDaysDate : Nat → Nat × Nat × Nat → Nat × Nat × Nat
  | 0, x => x
  | n + 1, x => addDaysDate n (nextDate x)

/-- Whether `datetime(y, mo, d, h, mi)` is constructible (no `ValueError`). -/
def validDT (y mo d h mi : Nat) : Bool :=
  1 ≤ y && 1 ≤ mo && mo ≤ 12 && 1 ≤ d && d ≤ daysInMonth y mo && h ≤ 23 && mi ≤ 59

/-- Zero-padded two-digit rendering (`%m`, `%d`, `%H`, `%M`). -/
def pad2 (n : Nat) : String := if n < 10 then "0" ++ toString n else toString n

/-- Zero-padded four-digit rendering (`%Y`). -/
def pad4 (n : Nat) : String :=
  if n < 10 then "000" ++ toString n
  else if n < 100 then "00" ++ toString n
  else if n < 1000 then "0" ++ toString n
  else toString n

/-- `deadline_dt.strftime('%Y-%m-%d %H:%M')`. -/
def fmtDT (y mo d h mi : Nat) : String :=
  pad4 y ++ "-" ++ pad2 mo ++ "-" ++ pad2 d ++ " " ++ pad2 h ++ ":" ++ pad2 mi

/-- The relative-date patterns of `extract_deadline`, in source order:
`本日|今日` ↦ 0, `明日` ↦ 1, `明後日|あさって` ↦ 2. -/
def relativeOffset (s : String) : Option Nat :=
  if pyContains s "本日" || pyContains s "今日" then some 0
  else if pyContains s "明日" then some 1
  else if pyContains s "明後日" || pyContains s "あさって" then some 2
  else none

/-- The six concrete date patterns of `extract_deadline`, searched in
source order; each entry is the result of `re.search` for that pattern. -/
def datePatternResults (l : List Char) : List (Option DMatch) :=
  [searchAt pat1At l, searchAt pat2At l, searchAt pat3At l,
   searchAt pat4At l, searchAt pat5At l, searchAt pat6At l]

/-- The `for pattern in date_patterns` loop of `extract_deadline`.  The
`year` accumulator mirrors the Python local: it is bumped to
`now.year + 1` when a matched month lies in the past and is *not* reset
before trying the next pattern after a `ValueError`. -/
def dateLoop (now : PyDateTime) : Nat → List (Option DMatch) → Option String
  | _, [] => none
  | year, none :: rest => dateLoop now year rest
  | year, some m :: rest =>
    let y := if m.month < now.month then now.year + 1 else year
    let hm : Nat × Nat :=
      match m.hour with
      | some h => (h, m.minute)
      | none =>
        if m.month = now.month && m.day = now.day && 17 ≤ now.hour then (23, 59)
        else (18, m.minute)
    if validDT y m.month m.day hm.1 hm.2 then some (fmtDT y m.month m.day hm.1 hm.2)
    else dateLoop now y rest

/-- `extract_deadline(text)` with the ambient JST clock made explicit.
In the relative branch an out-of-range hour raises an uncaught
`ValueError` in Python; this is modelled as `none` (no property below
exercises that corner). -/
def extract_deadline (now : PyDateTime) (text : String) : Option String :=
  match relativeOffset text with
  | some off =>
    let target := addDaysDate off (now.year, now.month, now.day)
    let hm : Nat × Nat :=
      match searchAt timeAt text.data with
      | some x => x
      | none => if off = 0 && 17 ≤ now.hour then (23, 59) else (18, 0)
    if validDT target.1 target.2.1 target.2.2 hm.1 hm.2 then
      some (fmtDT target.1 target.2.1 target.2.2 hm.1 hm.2)
    else none
  | none => dateLoop now now.year (datePatternResults text.data)

/-- `is_deadline_correction(text)`: a date-like token together with a
correction keyword, or a short (≤ 50 chars) date-bearing message. -/
def is_deadline_correction (text : String) : Bool :=
  let has_date := (searchAt pat5At text.data).isSome || (searchAt pat6At text.data).isSome
  let ends_desu := pyEndsWith text "です" || pyEndsWith text ("です" ++ "\n")
  let has_correction :=
    pyContains text "でした" || ends_desu || pyContains text "に変更" ||
    pyContains text "変更で" || pyContains text "修正" || pyContains text "訂正" ||
    pyContains text "間違" || pyContains text "納期"
  let is_short_date_only := has_date && (pyStrip text).length ≤ 50
  has_date && (has_correction || is_short_date_only)

/-- Lower-case hex digit (the character class `[a-f0-9]`). -/
def isHexDigitLower (c : Char) : Bool := c.isDigit || ('a' ≤ c && c ≤ 'f')

/-- Word character for `\b` (`[a-zA-Z0-9_]` plus the Unicode letter/digit
blocks that occur in this codebase's messages: kana, CJK ideographs,
full-width alphanumerics). -/
def isWordChar (c : Char) : Bool :=
  c.isAlphanum || c = '_' ||
  (0x3040 ≤ c.toNat && c.toNat ≤ 0x30FF) ||
  (0x4E00 ≤ c.toNat && c.toNat ≤ 0x9FFF) ||
  (0xFF10 ≤ c.toNat && c.toNat ≤ 0xFF19) ||
  (0xFF21 ≤ c.toNat && c.toNat ≤ 0xFF3A) ||
  (0xFF41 ≤ c.toNat && c.toNat ≤ 0xFF5A)

/-- Eight lower-hex characters at the head of the input. -/
def hex8At : List Char → Option (List Char × List Char)
  | a :: b :: c :: d :: e :: f :: g :: h :: rest =>
    if [a, b, c, d, e, f, g, h].all isHexDigitLower then
      some ([a, b, c, d, e, f, g, h], rest)
    else none
  | _ => none

/-- Search for `\b([a-f0-9]{8})\b`, tracking the previous character for
the left word boundary. -/
def searchOrderId (prev : Option Char) : List Char → Option String
  | [] => none
  | x :: r =>
    let prevOk := match prev with
      | none => true
      | some p => !isWordChar p
    let here : Option String :=
      if prevOk then
        match hex8At (x :: r) with
        | some (m, rest) =>
          match rest with
          | [] => some (String.mk m)
          | y :: _ => if isWordChar y then none else some (String.mk m)
        | none => none
      else none
    match here with
    | some s => some s
    | none => searchOrderId (some x) r

/-- `extract_order_id_from_message(text)`. -/
def extract_order_id_from_message (text : String) : Option String :=
  searchOrderId none (pyLower text).data

/-- Characters excluded by the URL regex's class `[^\s<>"{}|\\^`\[\]]`. -/
def urlStopChars : List Char :=
  ['<', '>', '"', Char.ofNat 123, Char.ofNat 125, '|', '\\', '^', Char.ofNat 96, '[', ']']

/-- A character the URL body may contain. -/
def isUrlChar (c : Char) : Bool := !isWs c && !urlStopChars.contains c

/-- After a matched scheme, take the (non-empty, greedy) URL body. -/
def urlBodyAfter (scheme rest : List Char) : Option (List Char × List Char) :=
  if (rest.takeWhile isUrlChar).isEmpty then none
  else some (scheme ++ rest.takeWhile isUrlChar, rest.dropWhile isUrlChar)

/-- Match `https?://[^\s<>"{}|\\^`\[\]]+` at the head of the input,
returning the match and the remaining input. -/
def matchUrlAt (l : List Char) : Option (List Char × List Char) :=
  if "https://".data.isPrefixOf l then urlBodyAfter "https://".data (l.drop 8)
  else if "http://".data.isPrefixOf l then urlBodyAfter "http://".data (l.drop 7)
  else none

/-- Fuel-driven core of `findUrls` (structural recursion; fuel at least
the input length suffices, as every match or skip consumes at least one
character). -/
def findUrlsAux : Nat → List Char → List String
  | 0, _ => []
  | _ + 1, [] => []
  | fuel + 1, c :: r =>
    match matchUrlAt (c :: r) with
    | some (url, rest) => String.mk url :: findUrlsAux fuel rest
    | none => findUrlsAux fuel r

/-- `re.findall` for the URL pattern: all non-overlapping matches, left
to right. -/
def findUrls (l : List Char) : List String := findUrlsAux l.length l

/-- `extract_urls(text)`. -/
def extract_urls (text : String) : List String := findUrls text.data

/-! ## `services/unprocessed_message_service.py`

The DynamoDB table becomes a list of entries; `created_at` ISO strings
become naturals with the same ordering. -/

/-- One buffered (unprocessed) group message. -/
structure UnprocMsg where
  group_id : String
  message_id : String
  user_id : String
  user_name : String
  message_text : String
  created_at : Nat
deriving DecidableEq

/-- Ascending arrival order on buffered messages. -/
def umLe (a b : UnprocMsg) : Prop := a.created_at ≤ b.created_at

instance : DecidableRel umLe := fun a b => Nat.decLe a.created_at b.created_at

instance : IsTotal UnprocMsg umLe := ⟨fun a b => Nat.le_total a.created_at b.created_at⟩

instance : IsTrans UnprocMsg umLe := ⟨fun _ _ _ => Nat.le_trans⟩

/-- `UnprocessedMessageService.TRIGGER_KEYWORDS`. -/
def TRIGGER_KEYWORDS : List String := ["@ai", "@AI", "@依頼", "＠ai", "＠AI", "＠依頼"]

/-- `has_trigger_keyword(message_text)`. -/
def has_trigger_keyword (message_text : String) : Bool :=
  TRIGGER_KEYWORDS.any (fun k => pyContains message_text k)

/-- `remove_trigger_keyword(message_text)`: replace every keyword by the
empty string, then strip. -/
def remove_trigger_keyword (message_text : String) : String :=
  pyStrip (TRIGGER_KEYWORDS.foldl (fun r k => pyReplace r k "") message_text)

/-- `get_unprocessed_messages(group_id)`: the group's entries sorted by
`created_at` ascending. -/
def get_unprocessed_messages (buffer : List UnprocMsg) (group_id : String) :
    List UnprocMsg :=
  List.insertionSort umLe (buffer.filter (fun m => m.group_id == group_id))

/-- `delete_unprocessed_messages(group_id)`: every entry of the group is
deleted by key. -/
def delete_unprocessed_messages (buffer : List UnprocMsg) (group_id : String) :
    List UnprocMsg :=
  buffer.filter (fun m => !(m.group_id == group_id))

/-- `combine_messages(messages, trigger_message)`: each buffered entry as
`"<sender>: <text>"`, then the trigger message with its trigger keywords
removed (omitted when empty), joined by newlines. -/
def combine_messages (messages : List UnprocMsg) (trigger_message : String) : String :=
  let parts := messages.map (fun m => m.user_name ++ ": " ++ m.message_text)
  let parts2 :=
    if !(trigger_message == "") then
      if !(remove_trigger_keyword trigger_message == "") then
        parts ++ [remove_trigger_keyword trigger_message]
      else parts
    else parts
  pyJoin "\n" parts2

/-! ## `services/order_service.py` -/

/-- One order row of `ai_secretary_orders` (keys `order_id`,
`created_at`); `attachments` keeps the appended `info` strings (the
stored `added_at` companion is wall-clock noise no property reads). -/
structure Order where
  order_id : String
  created_at : Nat
  customer_id : String
  customer_name : String
  group_id : String
  message : String
  status : String
  deadline : Option String
  service_type : String
  project_name : String
  drive_folder_id : Option String
  attachments : List String
deriving DecidableEq

/-- Newest-first order on orders (`sort(key=created_at, reverse=True)`). -/
def ordGe (a b : Order) : Prop := b.created_at ≤ a.created_at

instance : DecidableRel ordGe := fun a b => Nat.decLe b.created_at a.created_at

instance : IsTotal Order ordGe := ⟨fun a b => (Nat.le_total b.created_at a.created_at)⟩

instance : IsTrans Order ordGe := ⟨fun _ _ _ hab hbc => Nat.le_trans hbc hab⟩

/-- `OrderService.is_order_request(message)`. -/
def is_order_request (message : String) : Bool :=
  ["お願い", "レタッチ", "切り抜き", "加工", "依頼", "合成"].any
    (fun k => pyContains message k)

/-- `_detect_service_type(message)`. -/
def detect_service_type (message : String) : String :=
  if pyContains message "切り抜き" then "cutout"
  else if pyContains message "合成" then "composite"
  else if pyContains message "レタッチ" then "retouch"
  else "other"

/-- The conversation filter shared by the recent-order lookups:
`group_id` when the message came from a group, else `customer_id`. -/
def sameConversation (group_id : Option String) (user_id : String) (o : Order) : Bool :=
  match group_id with
  | some g => o.group_id == g
  | none => o.customer_id == user_id

/-- `get_recent_order(group_id, user_id, minutes)`: the newest order of
the conversation with status `received` created within the window. -/
def get_recent_order (store : List Order) (group_id : Option String) (user_id : String)
    (nowT minutes : Nat) : Option Order :=
  (List.insertionSort ordGe (store.filter (fun o =>
    sameConversation group_id user_id o &&
    nowT - minutes ≤ o.created_at && o.status == "received"))).head?

/-- Modelled from the spec: `OrderService.get_recent_orders` (plural) is
called by `process_message` for deadline corrections but is absent from
`src/`.  Per the spec it enumerates the conversation's orders of the last
N minutes; conversation scoping as in `get_recent_order`, newest first. -/
def get_recent_orders (store : List Order) (group_id : Option String) (user_id : String)
    (nowT minutes : Nat) : List Order :=
  List.insertionSort ordGe (store.filter (fun o =>
    sameConversation group_id user_id o && nowT - minutes ≤ o.created_at))

/-- `update_order(order_id, {'deadline': dl}, created_at)`. -/
def update_order_deadline (store : List Order) (oid : String) (ca : Nat) (dl : String) :
    List Order :=
  store.map (fun o =>
    if o.order_id == oid && o.created_at == ca then { o with deadline := some dl } else o)

/-- `add_attachment_to_order(order_id, info, created_at)`. -/
def add_attachment_to_order (store : List Order) (oid : String) (ca : Nat) (info : String) :
    List Order :=
  store.map (fun o =>
    if o.order_id == oid && o.created_at == ca then
      { o with attachments := o.attachments ++ [info] }
    else o)

/-! ## `services/approval_service.py`

The `ai_secretary_pending_messages` table becomes a list of rows keyed by
(`pending_id`, `created_at`).  DynamoDB's scan-with-filter is modelled as
the intended lookup (find the matching row). -/

/-- One pending-approval row. -/
structure PendingMsg where
  pending_id : String
  created_at : Nat
  target_id : String
  target_type : String
  response_text : String
  customer_name : String
  company_name : String
  original_message : String
  mention_user_id : String
  status : String
deriving DecidableEq

/-- No two rows share a `pending_id` (the ids are freshly generated
uuid prefixes; the code treats them as unique). -/
def uniqueIds (store : List PendingMsg) : Prop :=
  store.Pairwise (fun a b => a.pending_id ≠ b.pending_id)

instance (store : List PendingMsg) : Decidable (uniqueIds store) := by
  unfold uniqueIds
  infer_instance

/-- Scan for the row with a given id and status. -/
def getByStatus (store : List PendingMsg) (id status : String) : Option PendingMsg :=
  store.find? (fun m => m.pending_id == id && m.status == status)

/-- `get_pending_message(pending_id)`: only rows still in status
`pending` are found. -/
def get_pending_message (store : List PendingMsg) (id : String) : Option PendingMsg :=
  getByStatus store id "pending"

/-- `update_item` on the composite key (`pending_id`, `created_at`). -/
def updatePendingItem (store : List PendingMsg) (id : String) (ca : Nat)
    (f : PendingMsg → PendingMsg) : List PendingMsg :=
  store.map (fun m => if m.pending_id == id && m.created_at == ca then f m else m)

/-- `save_pending_message(...)`: always creates a `pending` row, with the
original customer message truncated to 500 characters.  The generated
short id and the clock are explicit arguments.  (`mention_user_id` is
stored for the callers that read it back; empty means none.) -/
def save_pending_message (store : List PendingMsg) (id : String) (nowT : Nat)
    (target_id target_type response_text customer_name company_name
     original_message mention_user_id : String) : List PendingMsg :=
  store ++ [{ pending_id := id, created_at := nowT, target_id := target_id,
              target_type := target_type, response_text := response_text,
              customer_name := customer_name, company_name := company_name,
              original_message := pyTake 500 original_message,
              mention_user_id := mention_user_id, status := "pending" }]

/-- `approve_message(pending_id)`: look up the still-pending row, set its
status to `approved`, and return the row as read (the caller sends its
`response_text`).  Unknown or already-decided ids return `none` and leave
the store unchanged. -/
def approve_message (store : List PendingMsg) (id : String) :
    Option PendingMsg × List PendingMsg :=
  match get_pending_message store id with
  | none => (none, store)
  | some p =>
    (some p, updatePendingItem store id p.created_at (fun m => { m with status := "approved" }))

/-- `reject_message(pending_id)`. -/
def reject_message (store : List PendingMsg) (id : String) :
    Bool × List PendingMsg :=
  match get_pending_message store id with
  | none => (false, store)
  | some p =>
    (true, updatePendingItem store id p.created_at (fun m => { m with status := "rejected" }))

/-- `update_pending_response(pending_id, new_response)`: overwrite the
draft text of a still-pending row; the status is untouched. -/
def update_pending_response (store : List PendingMsg) (id : String) (newText : String) :
    Bool × List PendingMsg :=
  match get_pending_message store id with
  | none => (false, store)
  | some p =>
    (true, updatePendingItem store id p.created_at (fun m => { m with response_text := newText }))

/-- Modelled from the spec: `ApprovalService.get_message_by_id` and
`reopen_message` are called by `handle_slack_interaction` but absent from
`src/`.  Per the spec, `reopen` is only valid from `approved` ("returns
to pending-equivalent behavior"; the caller's comment sets the status
back to `pending`); from any other status nothing is found and nothing
changes. -/
def reopen_message (store : List PendingMsg) (id : String) :
    Option PendingMsg × List PendingMsg :=
  match getByStatus store id "approved" with
  | none => (none, store)
  | some p =>
    (some p, updatePendingItem store id p.created_at (fun m => { m with status := "pending" }))

/-! ## `services/revision_service.py` and `services/notes_service.py` -/

/-- One revision-history row (`save_revision`). -/
structure RevisionRec where
  original_response : String
  revision_instruction : String
  revised_response : String
  customer_message : String
  customer_name : String
  company_name : String
  pending_id : String
deriving DecidableEq

/-- `NotesService.get_notes_as_markdown()` over the active note contents. -/
def get_notes_as_markdown (notes : List String) : String :=
  if notes.isEmpty then ""
  else pyJoin "\n" (["## 注意事項メモ", ""] ++ notes.map (fun c => "- " ++ c))

/-! ## `lambda_function.py`: operator commands (`handle_approval_command`)

State that the commands touch: the pending store, the revision history and
the note list.  External sends become effects; the AI endpoint is an
oracle `ai : String → String`. -/

/-- An observable action of an operator-command handler. -/
inductive OpEffect where
  | replyToOperator (text : String)
  | pushToCustomer (target_type target_id text mention_user_id : String)
  | memoAction
  | regCancelAction
deriving DecidableEq

/-- The fixed footer appended under a revised/edited draft. -/
def revisedReplyText (content id : String) : String :=
  content ++ "\n\n━━━━━━━━━━━━\n送信 " ++ id ++ "\n修正 " ++ id ++ "\nプロンプト修正 " ++ id ++ "："

/-- Not-found reply for an unknown or already-decided pending id. -/
def notFoundReply (id : String) : String := "ID: " ++ id ++ " が見つかりません。"

/-- The `送信 <id>` branch body: approve, push the draft to the customer
(group or individual), report the outcome.  The push itself is the
effect; its network success is outside the model. -/
def sousinCmd (store : List PendingMsg) (id : String) :
    List PendingMsg × List OpEffect :=
  match approve_message store id with
  | (none, s) => (s, [.replyToOperator (notFoundReply id)])
  | (some p, s) =>
    (s, [.pushToCustomer p.target_type p.target_id p.response_text p.mention_user_id,
         .replyToOperator "✅ 送信完了"])

/-- The `却下 <id>` branch body. -/
def kyakkaCmd (store : List PendingMsg) (id : String) :
    List PendingMsg × List OpEffect :=
  match reject_message store id with
  | (false, s) => (s, [.replyToOperator (notFoundReply id)])
  | (true, s) => (s, [.replyToOperator "却下しました。"])

/-- The rewrite prompt built by the `プロンプト修正` branch. -/
def revisionPrompt (instruction notes_text original : String) : String :=
  "以下の返信文を修正してください。\n\n修正指示: " ++ instruction ++ "\n\n" ++
  notes_text ++ "\n\n元の返信文:\n" ++ original ++
  "\n\n修正後の返信文のみを出力してください。説明は不要です。"

/-- The `プロンプト修正 <id>：<instruction>` branch body: rewrite the
draft through the AI oracle, overwrite the pending row's text (status
untouched), record exactly one revision-history row, re-post the draft. -/
def promptEditCmd (ai : String → String) (ps : List PendingMsg) (revs : List RevisionRec)
    (notes : List String) (id instruction : String) :
    List PendingMsg × List RevisionRec × List OpEffect :=
  match get_pending_message ps id with
  | none => (ps, revs, [.replyToOperator (notFoundReply id)])
  | some pending =>
    let original := pending.response_text
    let revised := ai (revisionPrompt instruction (get_notes_as_markdown notes) original)
    let r : RevisionRec :=
      { original_response := original, revision_instruction := instruction,
        revised_response := revised, customer_message := pyTake 1000 pending.original_message,
        customer_name := pending.customer_name, company_name := pending.company_name,
        pending_id := id }
    ((update_pending_response ps id revised).2, revs ++ [r],
     [.replyToOperator (revisedReplyText revised id)])

/-- The `修正 <id>\n<text>` branch body: overwrite the pending row's text
with the operator's literal content; no AI call, no revision row. -/
def directEditCmd (ps : List PendingMsg) (id content : String) :
    List PendingMsg × List OpEffect :=
  match get_pending_message ps id with
  | none => (ps, [.replyToOperator (notFoundReply id)])
  | some _ =>
    ((update_pending_response ps id content).2,
     [.replyToOperator (revisedReplyText content id)])

/-- Opening bracket characters stripped from a command's left edge. -/
def openBrackets : List Char := ['「', '『', '【']

/-- Closing bracket characters stripped from a command's right edge. -/
def closeBrackets : List Char := ['」', '』', '】']

/-- The command normalization: `user_message.strip().lstrip('「『【').rstrip('」』】')`. -/
def normalizeCmdText (user_message : String) : String :=
  pyRStripSet closeBrackets (pyLStripSet openBrackets (pyStrip user_message))

/-- `handle_approval_command(user_message, ...)`: the guard chain in
source order.  The memo and registration-cancel bodies are opaque effects
(no property below reads them); the four approval commands are the
branch bodies above.  Returns (handled?, pendings, revisions, effects). -/
def handle_approval_command (ai : String → String) (ps : List PendingMsg)
    (revs : List RevisionRec) (notes : List String) (user_message : String) :
    Bool × List PendingMsg × List RevisionRec × List OpEffect :=
  let text := normalizeCmdText user_message
  if (pyStartsWith text "登録キャンセル " || pyStartsWith text "登録キャンセル　") &&
      (pySplitWs text).length > 1 then
    (true, ps, revs, [.regCancelAction])
  else if text = "メモ一覧" then
    (true, ps, revs, [.memoAction])
  else if pyStartsWith text "メモ削除 " || pyStartsWith text "メモ削除　" then
    (true, ps, revs, [.memoAction])
  else if pyStartsWith text "メモ " || pyStartsWith text "メモ　" then
    (true, ps, revs, [.memoAction])
  else if (pyStartsWith text "送信 " || pyStartsWith text "送信　") &&
      (pySplitWs text).length > 1 then
    match (pySplitWs text).get? 1 with
    | some id =>
      let r := sousinCmd ps id
      (true, r.1, revs, r.2)
    | none => (false, ps, revs, [])
  else if (pyStartsWith text "却下 " || pyStartsWith text "却下　") &&
      (pySplitWs text).length > 1 then
    match (pySplitWs text).get? 1 with
    | some id =>
      let r := kyakkaCmd ps id
      (true, r.1, revs, r.2)
    | none => (false, ps, revs, [])
  else if pyStartsWith text "プロンプト修正 " || pyStartsWith text "プロンプト修正　" then
    let parts := pyStrip (pyDrop 7 text)
    if pyContains parts "：" || pyContains parts ":" then
      let sep := if pyContains parts "：" then '：' else ':'
      let split := pySplitOnce sep parts
      let id := pyStrip split.1
      let instruction := pyStrip ((split.2).getD "")
      if !(id == "") && !(instruction == "") then
        let r := promptEditCmd ai ps revs notes id instruction
        (true, r.1, r.2.1, r.2.2)
      else if !(id == "") then
        (true, ps, revs,
         [.replyToOperator "指示を入力してください。\n例: プロンプト修正 abc123：もっと丁寧に"])
      else (false, ps, revs, [])
    else
      match (pySplitWs parts).get? 0 with
      | some id =>
        if !(id == "") then
          (true, ps, revs,
           [.replyToOperator "指示を入力してください。\n例: プロンプト修正 abc123：もっと丁寧に"])
        else (false, ps, revs, [])
      | none => (false, ps, revs, [])
  else if pyStartsWith text "修正 " || pyStartsWith text "修正　" then
    let parts := pyStrip (pyDrop 3 text)
    let split := splitOnceChar '\n' parts.data
    let id := pyStrip (String.mk split.1)
    let content := (split.2).map (fun l => pyStrip (String.mk l))
    match content with
    | some c =>
      if !(id == "") && !(c == "") then
        let r := directEditCmd ps id c
        (true, r.1, revs, r.2)
      else if !(id == "") then
        (true, ps, revs, [.replyToOperator (directEditUsage id)])
      else (false, ps, revs, [])
    | none =>
      if !(id == "") then
        (true, ps, revs, [.replyToOperator (directEditUsage id)])
      else (false, ps, revs, [])
  else (false, ps, revs, [])
where
  directEditUsage (id : String) : String :=
    "修正内容を改行後に入力してください。\n\n例:\n修正 " ++ id ++
    "\nお世話になっております。\n承知いたしました。"

/-! ## `lambda_function.py`: trigger filter and group-message preprocessing -/

/-- Outcome of the group-message gate (`process_message` lines 699-750):
either the message is parked in the unprocessed buffer, or processing
proceeds with the (possibly combined / trigger-stripped) text, the
trigger flag for the auto-send check, the reply-mode flag, and the new
buffer state. -/
inductive Preprocessed where
  | buffered (entry : UnprocMsg)
  | proceed (text : String) (hasTrigger isReplyMode : Bool) (buffer : List UnprocMsg)
deriving DecidableEq

/-- The group-message gate.  `isAwaitingReply` is the 10-minute
awaiting-reply window (`GreetingService.is_awaiting_reply`);
`aiSaysForAI` is the external yes/no classifier's verdict.  Note the
awaiting-reply acceptance path sets the trigger flag to `true` for the
auto-send time-window check (source comment, line 734). -/
def preprocess_group_message (buffer : List UnprocMsg)
    (group_id message_id user_id user_name : String) (nowT : Nat)
    (userMessage : String) (isAwaitingReply aiSaysForAI : Bool) : Preprocessed :=
  let hasTrigger := has_trigger_keyword userMessage
  if !hasTrigger && !isAwaitingReply then
    .buffered ⟨group_id, message_id, user_id, user_name, userMessage, nowT⟩
  else if isAwaitingReply && !hasTrigger then
    if !aiSaysForAI then
      .buffered ⟨group_id, message_id, user_id, user_name, userMessage, nowT⟩
    else
      .proceed userMessage true true buffer
  else
    let msgs := get_unprocessed_messages buffer group_id
    if msgs.isEmpty then
      .proceed (remove_trigger_keyword userMessage) true false buffer
    else
      .proceed (combine_messages msgs userMessage) true false
        (delete_unprocessed_messages buffer group_id)

/-! ## `lambda_function.py`: `send_response` routing -/

/-- Where an outbound draft goes: sent directly (auto-send skip, no
PendingApproval row), into the approval pipeline (a PendingApproval row
is created and a review request posted), into the delayed-send queue, or
replied immediately (no approval configured). -/
inductive SendRoute where
  | direct
  | pipeline
  | delayed
  | immediate
deriving DecidableEq

/-- `send_response` routing.  `isAutoSendTime` is
`ApprovalService.is_auto_send_time()` (JST 4:00-13:00 per the caller's
comment; the predicate's body is clock configuration and enters the
model as a Boolean input). -/
def send_route (approvalEnabled hasTrigger isAutoSendTime enableDelayed : Bool) : SendRoute :=
  if approvalEnabled then
    if hasTrigger && isAutoSendTime then .direct else .pipeline
  else if enableDelayed then .delayed else .immediate

/-- Group-message end-to-end routing: the gate followed by
`send_response`; `none` when the message was parked in the buffer. -/
def route_group_message (buffer : List UnprocMsg)
    (group_id message_id user_id user_name : String) (nowT : Nat)
    (userMessage : String)
    (isAwaitingReply aiSaysForAI approvalEnabled isAutoSendTime enableDelayed : Bool) :
    Option SendRoute :=
  match preprocess_group_message buffer group_id message_id user_id user_name nowT
      userMessage isAwaitingReply aiSaysForAI with
  | .buffered _ => none
  | .proceed _ hasTrigger _ _ =>
    some (send_route approvalEnabled hasTrigger isAutoSendTime enableDelayed)

/-! ## `lambda_function.py`: deadline correction -/

/-- An observable action of the message-processing flows on the order
store and the outside world. -/
inductive MsgEffect where
  | reply (text : String)
  | updateDeadline (order_id : String) (created_at : Nat) (deadline : String)
  | calendarEvent (order_id : String) (deadline : String)
  | queueAttachmentTask (order_id : String) (created_at : Nat) (count : Nat)
  | queueUrlTask (order_id : String) (created_at : Nat) (urls : List String)
  | addOrderNote (order_id : String) (created_at : Nat) (info : String)
deriving DecidableEq

/-- The confirmation reply of a successful deadline update. -/
def deadlineOkReply (o : Order) (nd : String) : String :=
  if !(o.project_name == "") then
    "承知いたしました。\n「" ++ o.project_name ++ "」の納期を " ++ nd ++ " に修正いたしました。"
  else
    "承知いたしました。\n依頼（ID: " ++ pyTake 8 o.order_id ++ "）の納期を " ++ nd ++
    " に修正いたしました。"

/-- The per-candidate line of the disambiguation reply. -/
def disambiguationLine (o : Order) : String :=
  "• " ++ pyTake 8 o.order_id ++ ": " ++ o.project_name

/-- The disambiguation reply's lines, in source order. -/
def disambiguationLines (orders : List Order) (nd : String) : List String :=
  ["どちらの案件の納期を修正しますか？", ""] ++
  orders.map disambiguationLine ++
  ["", "案件IDを指定して再度お知らせください。",
   (match orders with
    | [] => ""
    | o :: _ => "例: 「" ++ pyTake 8 o.order_id ++ " 納期 " ++ nd ++ "」")]

/-- The disambiguation reply. -/
def disambiguationReply (orders : List Order) (nd : String) : String :=
  pyJoin "\n" (disambiguationLines orders nd)

/-- The deadline-correction region of `process_message` (lines 847-938).
`none` means fall through to normal classification.  The calendar call's
free-text description is not modelled (external side call). -/
def deadline_correction_step (now : PyDateTime) (nowT : Nat) (store : List Order)
    (group_id : Option String) (user_id userMessage : String) :
    Option (List MsgEffect) :=
  if is_deadline_correction userMessage then
    match extract_deadline now userMessage with
    | none => none
    | some nd =>
      match extract_order_id_from_message userMessage with
      | some oid =>
        match (get_recent_orders store group_id user_id nowT 1440).find?
            (fun o => pyStartsWith o.order_id oid) with
        | some t =>
          some [.updateDeadline t.order_id t.created_at nd,
                .calendarEvent t.order_id nd,
                .reply (deadlineOkReply t nd)]
        | none => some [.reply ("案件ID「" ++ oid ++ "」が見つかりませんでした。")]
      | none =>
        match get_recent_orders store group_id user_id nowT 60 with
        | [] => none
        | [o] =>
          some [.updateDeadline o.order_id o.created_at nd,
                .calendarEvent o.order_id nd,
                .reply (deadlineOkReply o nd)]
        | o1 :: o2 :: rest =>
          some [.reply (disambiguationReply (o1 :: o2 :: rest) nd)]
  else none

/-- The effect list of the single-recent-order deadline update. -/
def singleUpdateEffects (o : Order) (nd : String) : List MsgEffect :=
  [MsgEffect.updateDeadline o.order_id o.created_at nd,
   MsgEffect.calendarEvent o.order_id nd,
   MsgEffect.reply (deadlineOkReply o nd)]

/-- Apply one effect to the order store (replies, calendar and queue
writes do not touch it). -/
def apply_msg_effect (store : List Order) : MsgEffect → List Order
  | .updateDeadline oid ca dl => update_order_deadline store oid ca dl
  | .addOrderNote oid ca info => add_attachment_to_order store oid ca info
  | _ => store

/-- Apply a list of effects left to right. -/
def apply_msg_effects (store : List Order) (effs : List MsgEffect) : List Order :=
  effs.foldl apply_msg_effect store

/-! ## `lambda_function.py`: addendum / new-order / chat classification -/

/-- `text_without_urls`: the message with every extracted URL replaced by
the empty string. -/
def text_without_urls (userMessage : String) : String :=
  (extract_urls userMessage).foldl (fun t u => pyReplace t u "") userMessage

/-- The mutually exclusive flows of the classification region
(`process_message` lines 940-1146). -/
inductive Flow where
  | addendumAttachment (o : Order)
  | addendumUrl (o : Order)
  | newOrder
  | chat
deriving DecidableEq

/-- `is_attachment_only`: attachments, short raw text (NOT URL-stripped),
no order keyword. -/
def is_attachment_only (userMessage : String) (hasAttachments : Bool) : Bool :=
  hasAttachments && (pyStrip userMessage).length ≤ 20 && !is_order_request userMessage

/-- `is_url_only`: URLs present, short text after URL stripping, no order
keyword. -/
def is_url_only (userMessage : String) : Bool :=
  (extract_urls userMessage).length > 0 &&
  (pyStrip (text_without_urls userMessage)).length ≤ 20 &&
  !is_order_request userMessage

/-- The flow selected by the classification region. -/
def classify_flow (store : List Order) (group_id : Option String) (user_id : String)
    (nowT : Nat) (userMessage : String) (hasAttachments isReplyMode : Bool) : Flow :=
  let isAttOnly := is_attachment_only userMessage hasAttachments
  let isUrlOnly := is_url_only userMessage
  let recent :=
    if isAttOnly || isUrlOnly then get_recent_order store group_id user_id nowT 30 else none
  match recent with
  | some o => if isAttOnly then .addendumAttachment o else .addendumUrl o
  | none =>
    if (is_order_request userMessage || hasAttachments) && !isReplyMode then .newOrder
    else .chat

/-- The customer-facing reply of the addendum-by-attachment branch. -/
def addendum_attachment_response (o : Order) : String :=
  if !(o.project_name == "") then
    "データを受け取りました。\n" ++ o.project_name ++
    "の案件に追加登録します。\n\n処理中...完了後にお知らせします。"
  else
    "データを受け取りました。\n依頼（ID: " ++ pyTake 8 o.order_id ++
    "）に追加登録します。\n\n処理中...完了後にお知らせします。"

/-- The addendum-by-attachment branch's store/queue effects: enqueue the
attachment task and append the files-pending note to the order. -/
def addendum_attachment_effects (o : Order) (nAtt : Nat) : List MsgEffect :=
  if nAtt > 0 then
    [.queueAttachmentTask o.order_id o.created_at nAtt,
     .addOrderNote o.order_id o.created_at (toString nAtt ++ "件のファイル追加（処理中）")]
  else []

/-- The spec's own condition for addendum-by-attachment, following the
spec's words (for comparison with the code's classification):
"Attachments present, no order-like keywords, and remaining text (after
stripping any URLs) ≤ 20 characters, AND a recent order (within 30
minutes, same conversation) exists". -/
def specAddendumAttachmentCond (store : List Order) (group_id : Option String)
    (user_id : String) (nowT : Nat) (userMessage : String) (hasAttachments : Bool) : Bool :=
  hasAttachments && !is_order_request userMessage &&
  (pyStrip (text_without_urls userMessage)).length ≤ 20 &&
  (get_recent_order store group_id user_id nowT 30).isSome

/-! ## Outbound delivery (`handlers/line_handler.py`,
`services/delayed_response_service.py`) -/

/-- The body of a LINE push request: the recipient (the payload's `to`
field) and the text actually placed in the message payload. -/
structure PushPayload where
  dest : String
  text : String
deriving DecidableEq

/-- `LinePushService.push_message(user_id, text)`: `text[:5000]`. -/
def push_message (user_id text : String) : PushPayload :=
  { dest := user_id, text := pyTake 5000 text }

/-- `LinePushService.push_to_group(group_id, text)`: `text[:5000]`. -/
def push_to_group (group_id text : String) : PushPayload :=
  { dest := group_id, text := pyTake 5000 text }

/-- `LineHandler.reply`: the text placed in the reply payload,
`response_text[:5000]`. -/
def line_reply_text (response_text : String) : String := pyTake 5000 response_text

/-- Deliver an approval push effect through the LINE senders (the group
sender for `target_type == 'group'`, else the individual sender). -/
def deliver_push (e : OpEffect) : Option PushPayload :=
  match e with
  | .pushToCustomer ttype tid text _ =>
    if ttype == "group" then some (push_to_group tid text) else some (push_message tid text)
  | _ => none

/-! ## `file_processor.py`: the enrichment worker's attachment loop -/

/-- One attachment descriptor of a queued task. -/
structure AttSpec where
  content_id : String
  filename : Option String
  content_type : String
deriving DecidableEq

/-- `att.get('filename', f'file_{content_id}')`. -/
def fp_filename (a : AttSpec) : String := a.filename.getD ("file_" ++ a.content_id)

/-- The per-attachment loop of `process_attachments_task`: each item's
download-and-upload is wrapped in its own try/except (`tryItem a = false`
models an exception caught for that item); a successful item appends its
filename to `uploaded_files`. -/
def process_attachments_uploads (tryItem : AttSpec → Bool) (atts : List AttSpec) :
    List String :=
  atts.foldl (fun acc a => if tryItem a then acc ++ [fp_filename a] else acc) []

/-- The aggregate note appended to the order after the loop (only when at
least one file was uploaded). -/
def attachments_note (uploaded : List String) : Option String :=
  if uploaded.isEmpty then none
  else some (toString uploaded.length ++ "件のファイルをDriveに保存")

/-! ## Small derived notions and concrete sample data used by the
properties below -/

/-- Whether a flow is the addendum-by-attachment branch. -/
def isAddendumAttachmentFlow : Flow → Bool
  | .addendumAttachment _ => true
  | _ => false

/-- A character fit for a pending id in command position: not whitespace,
not a newline, not a colon separator, not a bracket stripped by the
command normalization.  Every character of the generated uuid-prefix ids
(lower hex) satisfies this. -/
def idClean (c : Char) : Bool :=
  !isWs c && !(c = '\n') && !(c = '：') && !(c = ':') &&
  !openBrackets.contains c && !closeBrackets.contains c

/-- Sample pending row (witness data). -/
def samplePending : PendingMsg :=
  { pending_id := "ab12cd34", created_at := 100, target_id := "G1",
    target_type := "group", response_text := "draft0", customer_name := "田中",
    company_name := "ACME", original_message := "orig", mention_user_id := "U9",
    status := "pending" }

/-- Sample pending store (witness data). -/
def samplePendingStore : List PendingMsg := [samplePending]

/-- Sample AI oracle returning a draft with a trailing newline. -/
def aiTrailingNewline : String → String := fun _ => "了解しました\n"

/-- Sample AI oracle returning a clean draft (no edge whitespace). -/
def aiNoNewline : String → String := fun _ => "了解しました"

/-- Decidable check: the first character, if any, is not whitespace. -/
def headNotWs (s : String) : Bool :=
  match s.data.head? with
  | none => true
  | some c => !isWs c

/-- Decidable check: the last character, if any, is neither whitespace
nor a stripped closing bracket. -/
def lastClean (s : String) : Bool :=
  match s.data.getLast? with
  | none => true
  | some c => !isWs c && !closeBrackets.contains c

/-- Sample order (witness data). -/
def sampleOrderA : Order :=
  { order_id := "aaaa1111-0000", created_at := 9980, customer_id := "U1",
    customer_name := "田中", group_id := "G1", message := "レタッチお願いします",
    status := "received", deadline := none, service_type := "retouch",
    project_name := "秋カタログ", drive_folder_id := some "F1", attachments := [] }

/-- Second sample order in the same conversation (witness data). -/
def sampleOrderB : Order :=
  { sampleOrderA with
    order_id := "bbbb2222-0000", created_at := 9990, project_name := "冬チラシ" }

/-- Sample clock: 2025-10-12 09:00 JST (witness data). -/
def sampleNow : PyDateTime := ⟨2025, 10, 12, 9⟩

/-- Sample buffered messages in group `G1` (witness data). -/
def sampleBuffer : List UnprocMsg :=
  [⟨"G1", "m2", "U2", "佐藤", "サイズは A4 です", 20⟩,
   ⟨"G1", "m1", "U1", "田中", "急ぎでお願いします", 10⟩,
   ⟨"G2", "m3", "U3", "鈴木", "別グループの話", 5⟩]

/-- Sample attachment descriptors (witness data). -/
def sampleAtts : List AttSpec :=
  [⟨"c1", some "a.psd", "image/vnd.adobe.photoshop"⟩,
   ⟨"c2", none, "image/jpeg"⟩,
   ⟨"c3", some "c.pdf", "application/pdf"⟩]

/-- Sample per-item success oracle failing exactly on `c2` (witness
data). -/
def sampleTryItem : AttSpec → Bool := fun a => !(a.content_id = "c2")

/-- A draft text of 5001 identical characters (witness data). -/
def longDraft : String := String.mk (List.replicate 5001 'x')

/-- Pending row holding an over-long draft (witness data). -/
def longDraftPending : PendingMsg :=
  { samplePending with response_text := longDraft }

/-- Pending store holding an over-long draft (witness data). -/
def longDraftStore : List PendingMsg := [longDraftPending]

/-- Pending store whose only row is already approved (witness data). -/
def sampleApprovedStore : List PendingMsg :=
  [{ samplePending with status := "approved" }]

/-- Pending store whose only row is rejected (witness data). -/
def sampleRejectedStore : List PendingMsg :=
  [{ samplePending with status := "rejected" }]

/-! # Lemmas about the pending-approval store -/

/-- A row found by `getByStatus` is in the store with the queried id and
status. -/
theorem getByStatus_mem {store : List PendingMsg} {id st : String} {m : PendingMsg}
    (h : getByStatus store id st = some m) :
    m ∈ store ∧ m.pending_id = id ∧ m.status = st := by
  have hp := List.find?_some h
  simp only [Bool.and_eq_true, beq_iff_eq] at hp
  exact ⟨List.mem_of_find?_eq_some h, hp.1, hp.2⟩

/-- Under `uniqueIds`, two store rows with the same id are the same row. -/
theorem uniqueIds_eq_of_same_id :
    ∀ {store : List PendingMsg}, uniqueIds store →
    ∀ {a b : PendingMsg}, a ∈ store → b ∈ store →
    a.pending_id = b.pending_id → a = b := by
  intro store
  induction store with
  | nil =>
    intro _ a b ha _ _
    cases ha
  | cons x rest ih =>
    intro hu a b ha hb hid
    have hu2 := List.pairwise_cons.mp (show List.Pairwise _ (x :: rest) from hu)
    rcases List.mem_cons.mp ha with rfl | ha2
    · rcases List.mem_cons.mp hb with rfl | hb2
      · rfl
      · exact absurd hid (hu2.1 b hb2)
    · rcases List.mem_cons.mp hb with rfl | hb2
      · exact absurd hid.symm (hu2.1 a ha2)
      · exact ih hu2.2 ha2 hb2 hid

/-- Updating the row found by `getByStatus` through its key: afterwards a
`getByStatus` for the same id sees exactly the updated row (or nothing,
when the update moved it out of the queried status). -/
theorem getByStatus_updatePendingItem :
    ∀ {store : List PendingMsg} {id st : String} {m : PendingMsg},
    uniqueIds store → getByStatus store id st = some m →
    ∀ (st2 : String) (f : PendingMsg → PendingMsg),
    (∀ x, (f x).pending_id = x.pending_id) →
    getByStatus (updatePendingItem store id m.created_at f) id st2 =
      if (f m).status = st2 then some (f m) else none := by
  intro store
  induction store with
  | nil =>
    intro id st m _ hm st2 f _
    simp [getByStatus] at hm
  | cons x rest ih =>
    intro id st m hu hm st2 f hf
    have hu2 := List.pairwise_cons.mp (show List.Pairwise _ (x :: rest) from hu)
    simp only [getByStatus] at hm
    simp only [getByStatus, updatePendingItem, List.map_cons]
    by_cases hx : (x.pending_id == id && x.status == st) = true
    · simp only [List.find?, hx] at hm
      have hmx : x = m := Option.some_inj.mp hm
      subst hmx
      have hxid : x.pending_id = id := by
        simp only [Bool.and_eq_true, beq_iff_eq] at hx
        exact hx.1
      have hhead :
          (if (x.pending_id == id && x.created_at == x.created_at) = true
           then f x else x) = f x := by
        simp [hxid]
      rw [hhead]
      by_cases hst : (f x).status = st2
      · rw [if_pos hst]
        apply List.find?_cons_of_pos
        simp [hf x, hxid, hst]
      · rw [if_neg hst]
        rw [List.find?_cons_of_neg]
        · rw [List.find?_eq_none]
          intro y hy
          rcases List.mem_map.mp hy with ⟨z, hz, rfl⟩
          have hzid : z.pending_id ≠ id := fun hzi => (hu2.1 z hz) (by rw [hxid, hzi])
          by_cases hc : (z.pending_id == id && z.created_at == x.created_at) = true
          · simp only [Bool.and_eq_true, beq_iff_eq] at hc
            exact absurd hc.1 hzid
          · simp only [hc, if_false, Bool.false_eq_true]
            simp [hzid]
        · simp only [Bool.and_eq_true, beq_iff_eq, not_and]
          intro _ h2
          exact hst h2
    · have hx2 : (x.pending_id == id && x.status == st) = false := by
        simpa using hx
      simp only [List.find?, hx2] at hm
      have hmm := List.mem_of_find?_eq_some hm
      have hmid : m.pending_id = id := by
        have h2 := List.find?_some hm
        simp only [Bool.and_eq_true, beq_iff_eq] at h2
        exact h2.1
      have hxid : x.pending_id ≠ id := fun hxi => (hu2.1 m hmm) (by rw [hxi, hmid])
      have hhead :
          (if (x.pending_id == id && x.created_at == m.created_at) = true
           then f x else x) = x := by
        simp [hxid]
      rw [hhead, List.find?_cons_of_neg]
      · have h3 := ih hu2.2 (show getByStatus rest id st = some m from hm) st2 f hf
        simpa [getByStatus, updatePendingItem] using h3
      · simp only [Bool.and_eq_true, beq_iff_eq, not_and]
        intro hxi
        exact absurd hxi hxid

/-- After a successful approval, the id is no longer found as pending. -/
theorem get_pending_after_approve {store : List PendingMsg} {p : String} {m : PendingMsg}
    (hu : uniqueIds store) (hm : get_pending_message store p = some m) :
    get_pending_message (approve_message store p).2 p = none := by
  rw [approve_message, hm]
  have h := getByStatus_updatePendingItem hu hm "pending"
      (fun m => { m with status := "approved" }) (fun _ => rfl)
  simpa using h

/-- After a successful approval, the same row is found as approved, with
its draft text intact. -/
theorem get_approved_after_approve {store : List PendingMsg} {p : String} {m : PendingMsg}
    (hu : uniqueIds store) (hm : get_pending_message store p = some m) :
    getByStatus (approve_message store p).2 p "approved" =
      some { m with status := "approved" } := by
  rw [approve_message, hm]
  have h := getByStatus_updatePendingItem hu hm "approved"
      (fun m => { m with status := "approved" }) (fun _ => rfl)
  simpa using h

/-! # Claim C2 -/

/-- C2: once `送信 p` has approved a pending draft (pushing it to the
customer exactly once), a second `送信 p` and a `却下 p` issued
afterwards both reply that the id was not found, push nothing to the
customer conversation, and leave the store unchanged: approving and
rejecting are idempotent on an already-approved id. -/
theorem c2_approve_reject_idempotent (store : List PendingMsg) (p : String)
    (m : PendingMsg) (hu : uniqueIds store)
    (hm : get_pending_message store p = some m) :
    (sousinCmd store p).2 =
      [OpEffect.pushToCustomer m.target_type m.target_id m.response_text m.mention_user_id,
       OpEffect.replyToOperator "✅ 送信完了"] ∧
    sousinCmd (sousinCmd store p).1 p =
      ((sousinCmd store p).1, [OpEffect.replyToOperator (notFoundReply p)]) ∧
    kyakkaCmd (sousinCmd store p).1 p =
      ((sousinCmd store p).1, [OpEffect.replyToOperator (notFoundReply p)]) := by
  have ha : approve_message store p =
      (some m, updatePendingItem store p m.created_at
        (fun x => { x with status := "approved" })) := by
    rw [approve_message, hm]
  have h1 : sousinCmd store p =
      (updatePendingItem store p m.created_at (fun x => { x with status := "approved" }),
       [OpEffect.pushToCustomer m.target_type m.target_id m.response_text m.mention_user_id,
        OpEffect.replyToOperator "✅ 送信完了"]) := by
    simp only [sousinCmd, ha]
  have hafter : get_pending_message
      (updatePendingItem store p m.created_at (fun x => { x with status := "approved" }))
      p = none := by
    have h := get_pending_after_approve hu hm
    rw [ha] at h
    simpa using h
  refine ⟨by rw [h1], ?_, ?_⟩
  · rw [h1]
    simp only [sousinCmd, approve_message, hafter]
  · rw [h1]
    simp only [kyakkaCmd, reject_message, hafter]

/-- Witness for C2 at a concrete store: the hypotheses hold for the
sample store, and the second `送信` indeed only reports not-found. -/
theorem c2_approve_reject_idempotent_witness :
    uniqueIds samplePendingStore ∧
    get_pending_message samplePendingStore "ab12cd34" = some samplePending ∧
    (sousinCmd (sousinCmd samplePendingStore "ab12cd34").1 "ab12cd34").2 =
      [OpEffect.replyToOperator (notFoundReply "ab12cd34")] ∧
    (kyakkaCmd (sousinCmd samplePendingStore "ab12cd34").1 "ab12cd34").2 =
      [OpEffect.replyToOperator (notFoundReply "ab12cd34")] := by
  have h := c2_approve_reject_idempotent samplePendingStore "ab12cd34" samplePending
    (by decide) (by decide)
  exact ⟨by decide, by decide, by rw [h.2.1], by rw [h.2.2]⟩

/-! # Claim C4 -/

/-- C4: `reopen` succeeds only on a row whose status is `approved`
(returning it to pending-equivalent behaviour, so that it is found as
pending again for re-review); invoked on an id whose rows are all
non-approved (e.g. pending or rejected) it reports not-found and changes
no state — it never silently succeeds. -/
theorem c4_reopen_only_from_approved (store : List PendingMsg) (p : String)
    (hu : uniqueIds store) :
    ((∀ x ∈ store, x.pending_id = p → x.status ≠ "approved") →
      reopen_message store p = (none, store)) ∧
    (∀ m, getByStatus store p "approved" = some m →
      (reopen_message store p).1 = some m ∧
      get_pending_message (reopen_message store p).2 p =
        some { m with status := "pending" } ∧
      ∀ x ∈ (reopen_message store p).2, x.pending_id ≠ p → x ∈ store) := by
  constructor
  · intro hnone
    have hfind : getByStatus store p "approved" = none := by
      rw [getByStatus, List.find?_eq_none]
      intro x hx
      simp only [Bool.and_eq_true, beq_iff_eq, not_and]
      intro hid
      exact hnone x hx hid
    simp only [reopen_message, hfind]
  · intro m hm
    have hre : reopen_message store p =
        (some m, updatePendingItem store p m.created_at
          (fun x => { x with status := "pending" })) := by
      simp only [reopen_message, hm]
    refine ⟨by rw [hre], ?_, ?_⟩
    · rw [hre]
      have h := getByStatus_updatePendingItem hu hm "pending"
        (fun x => { x with status := "pending" }) (fun _ => rfl)
      simpa [get_pending_message] using h
    · rw [hre]
      intro x hx hxp
      rcases List.mem_map.mp hx with ⟨z, hz, rfl⟩
      by_cases hc : (z.pending_id == p && z.created_at == m.created_at) = true
      · exfalso
        apply hxp
        rw [if_pos hc]
        simp only [Bool.and_eq_true, beq_iff_eq] at hc
        exact hc.1
      · rw [if_neg hc]
        exact hz

/-- Witness for C4: on an approved row reopen succeeds back to pending;
on a pending-only and on a rejected-only store it reports not-found and
leaves the store untouched. -/
theorem c4_reopen_only_from_approved_witness :
    reopen_message samplePendingStore "ab12cd34" = (none, samplePendingStore) ∧
    reopen_message sampleRejectedStore "ab12cd34" = (none, sampleRejectedStore) ∧
    get_pending_message (reopen_message sampleApprovedStore "ab12cd34").2 "ab12cd34" =
      some samplePending := by
  refine ⟨?_, ?_, ?_⟩
  · exact (c4_reopen_only_from_approved samplePendingStore "ab12cd34" (by decide)).1
      (by decide)
  · exact (c4_reopen_only_from_approved sampleRejectedStore "ab12cd34" (by decide)).1
      (by decide)
  · have h := (c4_reopen_only_from_approved sampleApprovedStore "ab12cd34" (by decide)).2
      { samplePending with status := "approved" } (by decide)
    have h2 := h.2.1
    simpa using h2

/-! # Claim C1 -/

/-- C1 counterexample: a group message carrying no trigger keyword,
processed only because of the awaiting-reply window (and judged
addressed to the AI), is sent directly during the auto-send window —
`SendRoute.direct`, so no PendingApproval row is created — although the
claim requires it to be routed through the approval pipeline. -/
theorem c1_counterexample :
    has_trigger_keyword "承知しました" = false ∧
    route_group_message [] "G1" "m1" "U1" "田中" 0 "承知しました"
      true true true true false = some SendRoute.direct := by
  decide

/-- C1 as amended: with the approval pipeline enabled, a group message
skips the pipeline (is sent directly, with no PendingApproval created)
exactly when the auto-send window is active AND the trigger flag is set —
and that flag is set both by an explicit trigger keyword and by the
awaiting-reply path when the yes/no classifier accepts the message
(source line 734 sets `has_trigger = True` for the auto-send check). -/
theorem c1_auto_send_skip_iff (buffer : List UnprocMsg)
    (gid mid uid uname : String) (nowT : Nat) (msg : String)
    (aw ai ap auto dl : Bool) :
    route_group_message buffer gid mid uid uname nowT msg aw ai ap auto dl =
        some SendRoute.direct ↔
      (ap = true ∧ auto = true ∧
        (has_trigger_keyword msg = true ∨ (aw = true ∧ ai = true))) := by
  cases htk : has_trigger_keyword msg <;> cases aw <;> cases ai <;>
    cases ap <;> cases auto <;> cases dl <;>
      cases hemp : get_unprocessed_messages buffer gid <;>
      simp [route_group_message, preprocess_group_message, send_route, htk, hemp]

/-! # Claim C5 -/

/-- C5: when a trigger keyword arrives for a group, the text handed on is
the buffered entries formatted `"<sender>: <text>"` in ascending
`created_at` order followed by the trigger message with its trigger
tokens removed, and the group's buffer is deleted in the same handling
(each buffered message is replayed exactly once); with an empty buffer
only the cleaned trigger message is used. -/
theorem c5_trigger_drains_buffer (buffer : List UnprocMsg) (g mid uid uname : String)
    (nowT : Nat) (msg : String) (aw ai : Bool)
    (htk : has_trigger_keyword msg = true) :
    List.Sorted umLe (get_unprocessed_messages buffer g) ∧
    (get_unprocessed_messages buffer g).Perm
      (buffer.filter (fun m => m.group_id == g)) ∧
    (get_unprocessed_messages buffer g ≠ [] →
      preprocess_group_message buffer g mid uid uname nowT msg aw ai =
        .proceed (combine_messages (get_unprocessed_messages buffer g) msg) true false
          (delete_unprocessed_messages buffer g) ∧
      get_unprocessed_messages (delete_unprocessed_messages buffer g) g = []) ∧
    (get_unprocessed_messages buffer g = [] →
      preprocess_group_message buffer g mid uid uname nowT msg aw ai =
        .proceed (remove_trigger_keyword msg) true false buffer) ∧
    (remove_trigger_keyword msg ≠ "" →
      combine_messages (get_unprocessed_messages buffer g) msg =
        pyJoin "\n"
          ((get_unprocessed_messages buffer g).map
            (fun m => m.user_name ++ ": " ++ m.message_text) ++
           [remove_trigger_keyword msg])) := by
  have hmsgne : msg ≠ "" := by
    intro h
    rw [h] at htk
    exact absurd htk (by decide)
  refine ⟨List.sorted_insertionSort umLe _, List.perm_insertionSort umLe _, ?_, ?_, ?_⟩
  · intro hne
    constructor
    · have hemp : (get_unprocessed_messages buffer g).isEmpty = false := by
        cases hh : get_unprocessed_messages buffer g with
        | nil => exact absurd hh hne
        | cons a l => simp [List.isEmpty]
      simp [preprocess_group_message, htk, hemp]
    · simp only [get_unprocessed_messages, delete_unprocessed_messages,
        List.filter_filter]
      have : (fun (m : UnprocMsg) => (m.group_id == g) && !(m.group_id == g)) =
          fun _ => false := by
        funext m
        cases m.group_id == g <;> rfl
      rw [this]
      simp [List.insertionSort]
  · intro hemp
    have hemp2 : (get_unprocessed_messages buffer g).isEmpty = true := by
      rw [hemp]
      rfl
    simp [preprocess_group_message, htk, hemp2]
  · intro hclean
    have h1 : (msg == "") = false := by simpa using hmsgne
    have h2 : (remove_trigger_keyword msg == "") = false := by simpa using hclean
    simp [combine_messages, h1, h2]

/-- Witness for C5: the sample buffer holds two `G1` entries (arrival
times 10 then 20, listed out of order) and one `G2` entry; the trigger
message is combined in ascending arrival order, and the `G1` buffer is
empty afterwards. -/
theorem c5_trigger_drains_buffer_witness :
    has_trigger_keyword "@ai 対応お願いします" = true ∧
    preprocess_group_message sampleBuffer "G1" "m9" "U1" "田中" 30
        "@ai 対応お願いします" false false =
      .proceed "田中: 急ぎでお願いします\n佐藤: サイズは A4 です\n対応お願いします"
        true false [⟨"G2", "m3", "U3", "鈴木", "別グループの話", 5⟩] ∧
    get_unprocessed_messages
      (delete_unprocessed_messages sampleBuffer "G1") "G1" = [] := by
  have h := c5_trigger_drains_buffer sampleBuffer "G1" "m9" "U1" "田中" 30
    "@ai 対応お願いします" false false (by decide)
  have h3 := h.2.2.1 (by decide)
  refine ⟨by decide, ?_, h3.2⟩
  rw [h3.1]
  decide

/-! # Claim C9 -/

/-- The worker's upload loop collects exactly the filenames of the
attachments whose own download-and-upload succeeded. -/
theorem process_attachments_uploads_eq_filter (tryItem : AttSpec → Bool) :
    ∀ (atts : List AttSpec) (acc : List String),
      atts.foldl (fun acc a => if tryItem a then acc ++ [fp_filename a] else acc) acc =
        acc ++ (atts.filter tryItem).map fp_filename := by
  intro atts
  induction atts with
  | nil => simp
  | cons a rest ih =>
    intro acc
    by_cases h : tryItem a = true
    · simp [h, ih]
    · have h2 : tryItem a = false := by simpa using h
      simp [h2, ih]

/-- C9: in the enrichment worker, a download/upload failure of one
attachment is caught per item and skips only that item: every sibling
attachment in the same task is still processed (the uploads around the
failing item are exactly those of the siblings), and the aggregate note
appended to the order counts only the successfully uploaded files. -/
theorem c9_per_item_failure_isolation (tryItem : AttSpec → Bool)
    (xs ys : List AttSpec) (y : AttSpec) (h : tryItem y = false) :
    process_attachments_uploads tryItem (xs ++ y :: ys) =
      process_attachments_uploads tryItem xs ++ process_attachments_uploads tryItem ys ∧
    process_attachments_uploads tryItem (xs ++ y :: ys) =
      ((xs ++ y :: ys).filter tryItem).map fp_filename ∧
    attachments_note (process_attachments_uploads tryItem (xs ++ y :: ys)) =
      (if ((xs ++ y :: ys).filter tryItem).isEmpty then none
       else some (toString ((xs ++ y :: ys).filter tryItem).length ++
         "件のファイルをDriveに保存")) := by
  have hchar : ∀ l, process_attachments_uploads tryItem l =
      (l.filter tryItem).map fp_filename := by
    intro l
    have h2 := process_attachments_uploads_eq_filter tryItem l []
    simpa [process_attachments_uploads] using h2
  refine ⟨?_, hchar _, ?_⟩
  · rw [hchar, hchar, hchar]
    simp [List.filter_append, h]
  · rw [hchar]
    rw [attachments_note]
    cases hh : ((xs ++ y :: ys).filter tryItem) with
    | nil => simp
    | cons a l => simp

/-- Witness for C9: the middle sample attachment fails, the first and
third are still uploaded, and the note counts two files. -/
theorem c9_per_item_failure_isolation_witness :
    sampleTryItem ⟨"c2", none, "image/jpeg"⟩ = false ∧
    process_attachments_uploads sampleTryItem sampleAtts = ["a.psd", "c.pdf"] ∧
    attachments_note (process_attachments_uploads sampleTryItem sampleAtts) =
      some "2件のファイルをDriveに保存" := by
  have h := c9_per_item_failure_isolation sampleTryItem
    [⟨"c1", some "a.psd", "image/vnd.adobe.photoshop"⟩]
    [⟨"c3", some "c.pdf", "application/pdf"⟩]
    ⟨"c2", none, "image/jpeg"⟩ (by decide)
  refine ⟨by decide, ?_, ?_⟩
  · have h1 := h.1
    exact (by decide : sampleAtts =
      [⟨"c1", some "a.psd", "image/vnd.adobe.photoshop"⟩] ++
        ⟨"c2", none, "image/jpeg"⟩ :: [⟨"c3", some "c.pdf", "application/pdf"⟩]) ▸
      (by rw [h1]; decide)
  · rw [show sampleAtts =
      [⟨"c1", some "a.psd", "image/vnd.adobe.photoshop"⟩] ++
        ⟨"c2", none, "image/jpeg"⟩ :: [⟨"c3", some "c.pdf", "application/pdf"⟩]
      from by decide]
    rw [h.2.2]
    decide

/-! # Claim C10 -/

/-- C10: every outbound text — the LINE reply call and both push calls —
is truncated to its first 5000 characters before sending; in particular
an approved draft longer than 5000 characters reaches the customer
truncated, while the stored PendingApproval row keeps the full draft
text. -/
theorem c10_outbound_truncation (uid gid text : String)
    (store : List PendingMsg) (p : String) (m : PendingMsg)
    (hu : uniqueIds store) (hm : get_pending_message store p = some m)
    (hlong : 5000 < m.response_text.length) :
    (push_message uid text).text = pyTake 5000 text ∧
    (push_to_group gid text).text = pyTake 5000 text ∧
    line_reply_text text = pyTake 5000 text ∧
    (pyTake 5000 text).length ≤ 5000 ∧
    (sousinCmd store p).2 =
      [OpEffect.pushToCustomer m.target_type m.target_id m.response_text m.mention_user_id,
       OpEffect.replyToOperator "✅ 送信完了"] ∧
    (∃ payload, deliver_push (OpEffect.pushToCustomer m.target_type m.target_id
        m.response_text m.mention_user_id) = some payload ∧
      payload.text = pyTake 5000 m.response_text ∧
      payload.text ≠ m.response_text) ∧
    (∃ m2, getByStatus (sousinCmd store p).1 p "approved" = some m2 ∧
      m2.response_text = m.response_text) := by
  have htake : ∀ s : String, (pyTake 5000 s).length ≤ 5000 := by
    intro s
    show (s.data.take 5000).length ≤ 5000
    simp [List.length_take]
  have ha : approve_message store p =
      (some m, updatePendingItem store p m.created_at
        (fun x => { x with status := "approved" })) := by
    rw [approve_message, hm]
  have h1 : sousinCmd store p =
      (updatePendingItem store p m.created_at (fun x => { x with status := "approved" }),
       [OpEffect.pushToCustomer m.target_type m.target_id m.response_text m.mention_user_id,
        OpEffect.replyToOperator "✅ 送信完了"]) := by
    simp only [sousinCmd, ha]
  refine ⟨rfl, rfl, rfl, htake text, by rw [h1], ?_, ?_⟩
  · have hne : pyTake 5000 m.response_text ≠ m.response_text := by
      intro he
      have hlen := congrArg String.length he
      have := htake m.response_text
      omega
    by_cases hg : (m.target_type == "group") = true
    · exact ⟨push_to_group m.target_id m.response_text, by simp [deliver_push, hg], rfl, hne⟩
    · have hg2 : (m.target_type == "group") = false := by simpa using hg
      exact ⟨push_message m.target_id m.response_text, by simp [deliver_push, hg2], rfl, hne⟩
  · refine ⟨{ m with status := "approved" }, ?_, rfl⟩
    have h2 := get_approved_after_approve hu hm
    rw [ha] at h2
    rw [h1]
    simpa using h2

/-- Witness for C10 at a 5001-character draft: the delivered group push
is exactly 5000 characters while the approved row keeps all 5001. -/
theorem c10_outbound_truncation_witness :
    uniqueIds longDraftStore ∧
    get_pending_message longDraftStore "ab12cd34" = some longDraftPending ∧
    5000 < longDraftPending.response_text.length ∧
    (∃ payload, deliver_push (OpEffect.pushToCustomer longDraftPending.target_type
        longDraftPending.target_id longDraftPending.response_text
        longDraftPending.mention_user_id) = some payload ∧
      payload.text = pyTake 5000 longDraftPending.response_text ∧
      payload.text ≠ longDraftPending.response_text) := by
  have hlen : longDraftPending.response_text.length = 5001 := by
    show (List.replicate 5001 'x').length = 5001
    rw [List.length_replicate]
  have h := c10_outbound_truncation "U1" "G1" "t" longDraftStore "ab12cd34"
    longDraftPending (by decide) rfl (by rw [hlen]; omega)
  exact ⟨by decide, rfl, by rw [hlen]; omega, h.2.2.2.2.2.1⟩

/-! # Claim C3 -/

/-- C3: a deadline-correction message with a parsed deadline but no
explicit 8-character order-id prefix, arriving while two or more orders
of the conversation lie in the 60-minute window, produces exactly one
disambiguation reply whose lines list each candidate's order-id prefix
and project name — and mutates no order (the store is unchanged by the
produced effects). -/
theorem c3_disambiguation_no_mutation (now : PyDateTime) (nowT : Nat)
    (store : List Order) (gid : Option String) (uid msg nd : String)
    (o1 o2 : Order) (rest : List Order)
    (h1 : is_deadline_correction msg = true)
    (h2 : extract_deadline now msg = some nd)
    (h3 : extract_order_id_from_message msg = none)
    (h4 : get_recent_orders store gid uid nowT 60 = o1 :: o2 :: rest) :
    deadline_correction_step now nowT store gid uid msg =
      some [MsgEffect.reply (disambiguationReply (o1 :: o2 :: rest) nd)] ∧
    (∀ o ∈ o1 :: o2 :: rest,
      disambiguationLine o ∈ disambiguationLines (o1 :: o2 :: rest) nd ∧
      disambiguationLine o = "• " ++ pyTake 8 o.order_id ++ ": " ++ o.project_name) ∧
    apply_msg_effects store
      [MsgEffect.reply (disambiguationReply (o1 :: o2 :: rest) nd)] = store := by
  refine ⟨?_, ?_, rfl⟩
  · simp only [deadline_correction_step, h1, h2, h3, h4, if_true]
  · intro o ho
    refine ⟨?_, rfl⟩
    simp only [disambiguationLines]
    exact List.mem_append.mpr (Or.inl (List.mem_append.mpr
      (Or.inr (List.mem_map.mpr ⟨o, ho, rfl⟩))))

/-- Witness for C3: two recent orders in the window, a correction
message with a date but no order id; the step yields exactly the
disambiguation reply and leaves the sample store unchanged. -/
theorem c3_disambiguation_no_mutation_witness :
    get_recent_orders [sampleOrderA, sampleOrderB] (some "G1") "U1" 10000 60 =
      [sampleOrderB, sampleOrderA] ∧
    deadline_correction_step sampleNow 10000 [sampleOrderA, sampleOrderB]
        (some "G1") "U1" "納期 12/5 17:00" =
      some [MsgEffect.reply
        (disambiguationReply [sampleOrderB, sampleOrderA] "2025-12-05 17:00")] ∧
    apply_msg_effects [sampleOrderA, sampleOrderB]
      [MsgEffect.reply
        (disambiguationReply [sampleOrderB, sampleOrderA] "2025-12-05 17:00")] =
      [sampleOrderA, sampleOrderB] := by
  have h := c3_disambiguation_no_mutation sampleNow 10000 [sampleOrderA, sampleOrderB]
    (some "G1") "U1" "納期 12/5 17:00" "2025-12-05 17:00" sampleOrderB sampleOrderA []
    (by decide) (by decide) (by decide) (by decide)
  exact ⟨by decide, h.1, h.2.2⟩

/-! # Claim C8 -/

/-- On a clock whose year is 2025 (any month), `extract_deadline` parses
`"12/5 17:00"` to `2025-12-05 17:00`: December is never smaller than the
current month, so the year is not bumped. -/
theorem extract_deadline_dec5 (now : PyDateTime) (hy : now.year = 2025)
    (hmn : now.month ≤ 12) :
    extract_deadline now "12/5 17:00" = some "2025-12-05 17:00" := by
  have hrel : relativeOffset "12/5 17:00" = none := by decide
  have hpats : datePatternResults "12/5 17:00".data =
      [some ⟨12, 5, some 17, 0⟩, none, none, none, some ⟨12, 5, none, 0⟩, none] := by
    decide
  have h0 : extract_deadline now "12/5 17:00" =
      dateLoop now now.year
        [some ⟨12, 5, some 17, 0⟩, none, none, none, some ⟨12, 5, none, 0⟩, none] := by
    simp only [extract_deadline, hrel]
    rw [hpats]
  have hlt : ¬ (12 < now.month) := by omega
  rw [h0, dateLoop]
  simp only [if_neg hlt, hy]
  rw [if_pos (by decide : validDT 2025 12 5 17 0 = true)]
  decide

/-- C8: with exactly one order in the 60-minute window and correction
text `"12/5 17:00"` (current year 2025), that order's deadline is set to
`2025-12-05 17:00`; the correction creates no new order (the order-id
list is unchanged) and the matching order ends with the new deadline. -/
theorem c8_single_recent_order_deadline (now : PyDateTime) (nowT : Nat)
    (store : List Order) (gid : Option String) (uid : String) (o : Order)
    (hy : now.year = 2025) (hmn : now.month ≤ 12)
    (hrec : get_recent_orders store gid uid nowT 60 = [o]) :
    deadline_correction_step now nowT store gid uid "12/5 17:00" =
      some (singleUpdateEffects o "2025-12-05 17:00") ∧
    (apply_msg_effects store (singleUpdateEffects o "2025-12-05 17:00")).map
        (fun x => x.order_id) =
      store.map (fun x => x.order_id) ∧
    (∀ x ∈ apply_msg_effects store (singleUpdateEffects o "2025-12-05 17:00"),
      x.order_id = o.order_id → x.created_at = o.created_at →
      x.deadline = some "2025-12-05 17:00") := by
  have happly : apply_msg_effects store (singleUpdateEffects o "2025-12-05 17:00") =
      update_order_deadline store o.order_id o.created_at "2025-12-05 17:00" := rfl
  refine ⟨?_, ?_, ?_⟩
  · simp only [deadline_correction_step,
      (by decide : is_deadline_correction "12/5 17:00" = true),
      extract_deadline_dec5 now hy hmn,
      (by decide : extract_order_id_from_message "12/5 17:00" = none),
      hrec, if_true, singleUpdateEffects]
  · rw [happly, update_order_deadline, List.map_map]
    apply List.map_congr_left
    intro x _
    by_cases hc : (x.order_id == o.order_id && x.created_at == o.created_at) = true
    · rw [Function.comp_apply, if_pos hc]
    · rw [Function.comp_apply, if_neg hc]
  · rw [happly, update_order_deadline]
    intro x hx hxo hxc
    rcases List.mem_map.mp hx with ⟨z, _, rfl⟩
    by_cases hc : (z.order_id == o.order_id && z.created_at == o.created_at) = true
    · rw [if_pos hc]
    · rw [if_neg hc] at hxo hxc ⊢
      exfalso
      apply hc
      simp [hxo, hxc]

/-- Witness for C8: one recent sample order; after the step its deadline
is `2025-12-05 17:00` and the store still holds exactly one order with
the same id. -/
theorem c8_single_recent_order_deadline_witness :
    get_recent_orders [sampleOrderA] (some "G1") "U1" 10000 60 = [sampleOrderA] ∧
    deadline_correction_step sampleNow 10000 [sampleOrderA] (some "G1") "U1"
        "12/5 17:00" =
      some (singleUpdateEffects sampleOrderA "2025-12-05 17:00") ∧
    apply_msg_effects [sampleOrderA] (singleUpdateEffects sampleOrderA "2025-12-05 17:00") =
      [{ sampleOrderA with deadline := some "2025-12-05 17:00" }] := by
  have h := c8_single_recent_order_deadline sampleNow 10000 [sampleOrderA]
    (some "G1") "U1" sampleOrderA (by decide) (by decide) (by decide)
  exact ⟨by decide, h.1, by decide⟩

/-! # Claim C7 -/

/-- C7 counterexample: a message with attachments whose entire text is a
31-character URL.  After URL stripping its remaining text is empty
(≤ 20), no order keyword, and a received order exists within 30 minutes
— the claim's condition holds — yet the code does not take the
addendum-by-attachment branch (it takes the URL branch, because
`is_attachment_only` measures the raw text, 31 > 20). -/
theorem c7_counterexample :
    specAddendumAttachmentCond [sampleOrderA] (some "G1") "U1" 10000
        "https://example.com/files/a.zip" true = true ∧
    isAddendumAttachmentFlow (classify_flow [sampleOrderA] (some "G1") "U1" 10000
        "https://example.com/files/a.zip" true false) = false ∧
    classify_flow [sampleOrderA] (some "G1") "U1" 10000
        "https://example.com/files/a.zip" true false =
      Flow.addendumUrl sampleOrderA := by
  refine ⟨by decide, ?_, ?_⟩ <;> decide

/-- C7 as amended: a message is handled as addendum-by-attachment
against order `o` exactly when it has attachments, contains no
order-request keyword, its RAW text (whitespace-stripped but with URLs
NOT removed) is at most 20 characters, and `o` is the recent received
order of the conversation within 30 minutes; in that branch the code
enqueues the attachment enrichment task against `o` and appends the
files-pending note counting the attachments. -/
theorem c7_attachment_addendum_iff (store : List Order) (gid : Option String)
    (uid : String) (nowT : Nat) (msg : String) (hasAtt rm : Bool) (o : Order) :
    (classify_flow store gid uid nowT msg hasAtt rm = Flow.addendumAttachment o ↔
      (hasAtt = true ∧ is_order_request msg = false ∧
       (pyStrip msg).length ≤ 20 ∧
       get_recent_order store gid uid nowT 30 = some o)) ∧
    (∀ n : Nat, 0 < n →
      addendum_attachment_effects o n =
        [MsgEffect.queueAttachmentTask o.order_id o.created_at n,
         MsgEffect.addOrderNote o.order_id o.created_at
           (toString n ++ "件のファイル追加（処理中）")]) := by
  constructor
  · have hiff : is_attachment_only msg hasAtt = true ↔
        (hasAtt = true ∧ is_order_request msg = false ∧ (pyStrip msg).length ≤ 20) := by
      simp only [is_attachment_only, Bool.and_eq_true, Bool.not_eq_true',
        decide_eq_true_eq]
      tauto
    rw [show (hasAtt = true ∧ is_order_request msg = false ∧
        (pyStrip msg).length ≤ 20 ∧ get_recent_order store gid uid nowT 30 = some o) ↔
        (is_attachment_only msg hasAtt = true ∧
         get_recent_order store gid uid nowT 30 = some o) from by rw [hiff]; tauto]
    by_cases hAtt : is_attachment_only msg hasAtt = true <;>
      by_cases hUrl : is_url_only msg = true <;>
        cases hro : get_recent_order store gid uid nowT 30 <;>
          simp_all [classify_flow] <;> split <;> simp_all
  · intro n hn
    rw [addendum_attachment_effects, if_pos hn]

/-- Witness for C7's amended statement: a short non-URL text with
attachments and a recent order is classified as addendum-by-attachment,
and with two attachments the branch enqueues the task and appends the
2-file note. -/
theorem c7_attachment_addendum_iff_witness :
    classify_flow [sampleOrderA] (some "G1") "U1" 10000 "追加です" true false =
      Flow.addendumAttachment sampleOrderA ∧
    addendum_attachment_effects sampleOrderA 2 =
      [MsgEffect.queueAttachmentTask sampleOrderA.order_id sampleOrderA.created_at 2,
       MsgEffect.addOrderNote sampleOrderA.order_id sampleOrderA.created_at
         "2件のファイル追加（処理中）"] := by
  have h := c7_attachment_addendum_iff [sampleOrderA] (some "G1") "U1" 10000
    "追加です" true false sampleOrderA
  refine ⟨h.1.mpr ⟨rfl, by decide, by decide, by decide⟩, ?_⟩
  have h2 := h.2 2 (by omega)
  rw [h2]
  decide

/-! # String-level lemmas for the command grammar (claim C6) -/

/-- Left strip is the identity when the head does not satisfy the
predicate. -/
theorem stripLWhile_eq_self {q : Char → Bool} {l : List Char}
    (h : ∀ c, l.head? = some c → q c = false) : stripLWhile q l = l := by
  cases l with
  | nil => rfl
  | cons c r =>
    rw [stripLWhile, List.dropWhile_cons, if_neg]
    rw [h c rfl]
    simp

/-- Right strip is the identity when the last character does not satisfy
the predicate. -/
theorem stripRWhile_eq_self {q : Char → Bool} {l : List Char}
    (h : ∀ c, l.getLast? = some c → q c = false) : stripRWhile q l = l := by
  rw [stripRWhile]
  cases hrev : l.reverse with
  | nil =>
    rw [List.reverse_eq_nil_iff.mp hrev]
    rfl
  | cons c r =>
    have hlast : l.getLast? = some c := by
      rw [← List.head?_reverse, hrev]
      rfl
    rw [List.dropWhile_cons, if_neg (by rw [h c hlast]; simp)]
    rw [← hrev, List.reverse_reverse]

/-- Strings with the same character list are equal. -/
theorem string_eq_of_data {s u : String} (h : s.data = u.data) : s = u := by
  cases s
  cases u
  exact congrArg String.mk (by simpa using h)

/-- `pyStrip` is the identity when neither edge is whitespace. -/
theorem pyStrip_eq_self {s : String}
    (h1 : ∀ c, s.data.head? = some c → isWs c = false)
    (h2 : ∀ c, s.data.getLast? = some c → isWs c = false) : pyStrip s = s := by
  rw [pyStrip, stripLWhile_eq_self h1, stripRWhile_eq_self h2]

/-- The command normalization is the identity when neither edge is
whitespace or a stripped bracket. -/
theorem normalizeCmdText_eq_self {s : String}
    (h1 : ∀ c, s.data.head? = some c →
      (isWs c = false ∧ openBrackets.contains c = false))
    (h2 : ∀ c, s.data.getLast? = some c →
      (isWs c = false ∧ closeBrackets.contains c = false)) :
    normalizeCmdText s = s := by
  rw [normalizeCmdText, pyStrip_eq_self (fun c hc => (h1 c hc).1) (fun c hc => (h2 c hc).1)]
  rw [pyLStripSet, stripLWhile_eq_self (fun c hc => (h1 c hc).2)]
  show pyRStripSet closeBrackets s = s
  rw [pyRStripSet, stripRWhile_eq_self (fun c hc => (h2 c hc).2)]

/-- A string that starts with a different character than the pattern's
first character does not start with the pattern. -/
theorem pyStartsWith_head_ne {s pre : String} {c d : Char} {l m : List Char}
    (hs : s.data = c :: l) (hp : pre.data = d :: m) (h : ¬ c = d) :
    pyStartsWith s pre = false := by
  rw [pyStartsWith, hs, hp]
  simp [List.isPrefixOf]
  intro he
  exact absurd he.symm h

/-- Strings are distinct when their first characters differ. -/
theorem string_ne_of_head {s u : String} {c d : Char} {l m : List Char}
    (hs : s.data = c :: l) (hu : u.data = d :: m) (h : ¬ c = d) : ¬ s = u := by
  intro he
  rw [he, hu] at hs
  exact absurd (List.cons.inj hs.symm).1 h

/-- A one-character pattern occurs in any list containing it. -/
theorem listIsInfix_singleton {c : Char} :
    ∀ (a b : List Char), listIsInfix [c] (a ++ c :: b) = true := by
  intro a
  induction a with
  | nil =>
    intro b
    simp [listIsInfix, List.isPrefixOf]
  | cons x r ih =>
    intro b
    rw [List.cons_append, listIsInfix]
    rw [ih b]
    simp

/-- `split(sep, 1)` around an explicit first separator occurrence. -/
theorem splitOnceChar_append {c : Char} :
    ∀ {a : List Char}, (∀ x ∈ a, ¬ x = c) → ∀ (b : List Char),
      splitOnceChar c (a ++ c :: b) = (a, some b) := by
  intro a
  induction a with
  | nil =>
    intro _ b
    simp [splitOnceChar]
  | cons x r ih =>
    intro h b
    rw [List.cons_append, splitOnceChar]
    rw [if_neg (h x (List.mem_cons_self x r))]
    rw [ih (fun y hy => h y (List.mem_cons_of_mem x hy)) b]

/-- Unpack the conjuncts of `idClean`. -/
theorem idClean_spec {c : Char} (h : idClean c = true) :
    isWs c = false ∧ ¬ c = '\n' ∧ ¬ c = '：' ∧ ¬ c = ':' ∧
    openBrackets.contains c = false ∧ closeBrackets.contains c = false := by
  simp only [idClean, Bool.and_eq_true, Bool.not_eq_true', decide_eq_false_iff_not] at h
  exact ⟨h.1.1.1.1.1, h.1.1.1.1.2, h.1.1.1.2, h.1.1.2, h.1.2, h.2⟩

/-- `pyStrip` of a string of id-clean characters is itself. -/
theorem pyStrip_of_idClean {s : String} (h : ∀ c ∈ s.data, idClean c = true) :
    pyStrip s = s := by
  refine pyStrip_eq_self ?_ ?_
  · intro c hc
    exact (idClean_spec (h c (List.mem_of_mem_head? hc))).1
  · intro c hc
    exact (idClean_spec (h c (List.mem_of_mem_getLast? hc))).1

/-- A non-empty string is not `==`-equal to the empty string. -/
theorem beq_empty_eq_false {s : String} (h : s.data ≠ []) : (s == "") = false := by
  have hne : ¬ s = "" := by
    intro he
    rw [he] at h
    exact h rfl
  exact beq_eq_false_iff_ne.mpr hne

/-- Keying an update by (id, created_at) preserves id uniqueness when
the update function preserves ids. -/
theorem uniqueIds_updatePendingItem {store : List PendingMsg} (hu : uniqueIds store)
    (id : String) (ca : Nat) (f : PendingMsg → PendingMsg)
    (hf : ∀ x, (f x).pending_id = x.pending_id) :
    uniqueIds (updatePendingItem store id ca f) := by
  rw [updatePendingItem]
  have hg : ∀ x : PendingMsg,
      (if (x.pending_id == id && x.created_at == ca) = true then f x else x).pending_id =
        x.pending_id := by
    intro x
    split
    · exact hf x
    · rfl
  refine List.pairwise_map.mpr ?_
  refine List.Pairwise.imp ?_ hu
  intro a b hab
  rw [hg a, hg b]
  exact hab

/-- Overwriting the draft text of the pending row found by
`get_pending_message` keeps it pending with the new text. -/
theorem get_pending_after_update_response {store : List PendingMsg} {p : String}
    {m : PendingMsg} (hu : uniqueIds store)
    (hm : get_pending_message store p = some m) (tnew : String) :
    (update_pending_response store p tnew).2 =
      updatePendingItem store p m.created_at (fun x => { x with response_text := tnew }) ∧
    get_pending_message (update_pending_response store p tnew).2 p =
      some { m with response_text := tnew } ∧
    uniqueIds (update_pending_response store p tnew).2 := by
  have hupd : (update_pending_response store p tnew).2 =
      updatePendingItem store p m.created_at
        (fun x => { x with response_text := tnew }) := by
    simp only [update_pending_response, hm]
  have hst : m.status = "pending" := (getByStatus_mem hm).2.2
  refine ⟨hupd, ?_, ?_⟩
  · rw [hupd]
    have h := getByStatus_updatePendingItem hu hm "pending"
      (fun x => { x with response_text := tnew }) (fun _ => rfl)
    rw [get_pending_message, h, if_pos (by simpa using hst)]
  · rw [hupd]
    exact uniqueIds_updatePendingItem hu p m.created_at _ (fun _ => rfl)

set_option maxHeartbeats 1600000 in
/-- Parsing the direct-edit command: for an id-clean `p` and a text `t`
that is strip-clean with no closing bracket at its end, the dispatcher
reduces `修正 p\nt` to the direct-edit branch body with exactly `p` and
`t`. -/
theorem parse_direct_edit_cmd (ai : String → String) (ps : List PendingMsg)
    (revs : List RevisionRec) (notes : List String) (p t : String)
    (hpne : p.data ≠ []) (hpc : ∀ c ∈ p.data, idClean c = true)
    (htne : t.data ≠ [])
    (hth : ∀ c, t.data.head? = some c → isWs c = false)
    (htl : ∀ c, t.data.getLast? = some c →
      (isWs c = false ∧ closeBrackets.contains c = false)) :
    handle_approval_command ai ps revs notes ("修正 " ++ p ++ "\n" ++ t) =
      (true, (directEditCmd ps p t).1, revs, (directEditCmd ps p t).2) := by
  have hdata : ("修正 " ++ p ++ "\n" ++ t).data =
      '修' :: '正' :: ' ' :: (p.data ++ '\n' :: t.data) := by
    simp [String.data_append]
  have horn : ∀ (l l2 : List Char), l2 ≠ [] → (l ++ l2).getLast? = l2.getLast? := by
    intro l l2 h
    rw [List.getLast?_append]
    cases hgl : l2.getLast? with
    | none => exact absurd (List.getLast?_eq_none_iff.mp hgl) h
    | some d => rfl
  have hlastt : ∀ c, ("修正 " ++ p ++ "\n" ++ t).data.getLast? = some c →
      (isWs c = false ∧ closeBrackets.contains c = false) := by
    intro c hc
    rw [String.data_append, horn _ _ htne] at hc
    exact htl c hc
  have hnorm : normalizeCmdText ("修正 " ++ p ++ "\n" ++ t) = "修正 " ++ p ++ "\n" ++ t := by
    refine normalizeCmdText_eq_self ?_ hlastt
    intro c hc
    rw [hdata] at hc
    simp only [List.head?_cons, Option.some.injEq] at hc
    rw [← hc]
    exact ⟨by decide, by decide⟩
  have hpd3 : (pyDrop 3 ("修正 " ++ p ++ "\n" ++ t)).data = p.data ++ '\n' :: t.data := by
    show (("修正 " ++ p ++ "\n" ++ t).data.drop 3) = _
    rw [hdata]
    rfl
  have hpne2 : ∀ x ∈ p.data, ¬ x = '\n' := fun x hx => (idClean_spec (hpc x hx)).2.1
  have hparts : pyStrip (pyDrop 3 ("修正 " ++ p ++ "\n" ++ t)) =
      String.mk (p.data ++ '\n' :: t.data) := by
    have h1 : ∀ c, (pyDrop 3 ("修正 " ++ p ++ "\n" ++ t)).data.head? = some c →
        isWs c = false := by
      intro c hc
      rw [hpd3] at hc
      cases hpdata : p.data with
      | nil => exact absurd hpdata hpne
      | cons a r =>
        rw [hpdata] at hc
        simp only [List.cons_append, List.head?_cons, Option.some.injEq] at hc
        rw [← hc]
        exact (idClean_spec (hpc a (by rw [hpdata]; exact List.mem_cons_self a r))).1
    have h2 : ∀ c, (pyDrop 3 ("修正 " ++ p ++ "\n" ++ t)).data.getLast? = some c →
        isWs c = false := by
      intro c hc
      rw [hpd3, List.append_cons, horn _ _ htne] at hc
      exact (htl c hc).1
    have h3 := pyStrip_eq_self h1 h2
    rw [h3]
    exact string_eq_of_data hpd3
  have hsplit : splitOnceChar '\n' (String.mk (p.data ++ '\n' :: t.data)).data =
      (p.data, some t.data) := splitOnceChar_append hpne2 t.data
  have hid : pyStrip (String.mk p.data) = p :=
    pyStrip_of_idClean (show ∀ c ∈ (String.mk p.data).data, idClean c = true from hpc)
  have hcontent : pyStrip (String.mk t.data) = t :=
    pyStrip_eq_self hth (fun c hc => (htl c hc).1)
  simp only [handle_approval_command, hnorm]
  rw [if_neg (by
    simp only [Bool.and_eq_true, Bool.or_eq_true]
    intro hcon
    rcases hcon.1 with h | h
    · exact absurd h (by rw [pyStartsWith_head_ne hdata rfl (by decide)]; simp)
    · exact absurd h (by rw [pyStartsWith_head_ne hdata rfl (by decide)]; simp))]
  rw [if_neg (string_ne_of_head hdata rfl (by decide))]
  rw [if_neg (by
    simp only [Bool.or_eq_true]
    intro hcon
    rcases hcon with h | h <;>
      exact absurd h (by rw [pyStartsWith_head_ne hdata rfl (by decide)]; simp))]
  rw [if_neg (by
    simp only [Bool.or_eq_true]
    intro hcon
    rcases hcon with h | h <;>
      exact absurd h (by rw [pyStartsWith_head_ne hdata rfl (by decide)]; simp))]
  rw [if_neg (by
    simp only [Bool.and_eq_true, Bool.or_eq_true]
    intro hcon
    rcases hcon.1 with h | h <;>
      exact absurd h (by rw [pyStartsWith_head_ne hdata rfl (by decide)]; simp))]
  rw [if_neg (by
    simp only [Bool.and_eq_true, Bool.or_eq_true]
    intro hcon
    rcases hcon.1 with h | h <;>
      exact absurd h (by rw [pyStartsWith_head_ne hdata rfl (by decide)]; simp))]
  rw [if_neg (by
    simp only [Bool.or_eq_true]
    intro hcon
    rcases hcon with h | h <;>
      exact absurd h (by rw [pyStartsWith_head_ne hdata rfl (by decide)]; simp))]
  rw [if_pos (by
    rw [show pyStartsWith ("修正 " ++ p ++ "\n" ++ t) "修正 " = true from by
      rw [pyStartsWith, hdata]
      simp [List.isPrefixOf]]
    simp)]
  rw [hparts, hsplit, hid]
  rw [show Option.map (fun l => pyStrip (String.mk l)) (some t.data) =
      some (pyStrip (String.mk t.data)) from rfl]
  rw [hcontent]
  simp [beq_empty_eq_false hpne, beq_empty_eq_false htne]

set_option maxHeartbeats 1600000 in
/-- Parsing the AI-revise command: for an id-clean `p` and a strip-clean
instruction `i`, the dispatcher reduces `プロンプト修正 p：i` to the
revise branch body with exactly `p` and `i`. -/
theorem parse_prompt_edit_cmd (ai : String → String) (ps : List PendingMsg)
    (revs : List RevisionRec) (notes : List String) (p i : String)
    (hpne : p.data ≠ []) (hpc : ∀ c ∈ p.data, idClean c = true)
    (hine : i.data ≠ [])
    (hih : ∀ c, i.data.head? = some c → isWs c = false)
    (hil : ∀ c, i.data.getLast? = some c →
      (isWs c = false ∧ closeBrackets.contains c = false)) :
    handle_approval_command ai ps revs notes ("プロンプト修正 " ++ p ++ "：" ++ i) =
      (true, (promptEditCmd ai ps revs notes p i).1,
       (promptEditCmd ai ps revs notes p i).2.1,
       (promptEditCmd ai ps revs notes p i).2.2) := by
  have hdata : ("プロンプト修正 " ++ p ++ "：" ++ i).data =
      'プ' :: 'ロ' :: 'ン' :: 'プ' :: 'ト' :: '修' :: '正' :: ' ' ::
        (p.data ++ '：' :: i.data) := by
    simp [String.data_append]
  have horn : ∀ (l l2 : List Char), l2 ≠ [] → (l ++ l2).getLast? = l2.getLast? := by
    intro l l2 h
    rw [List.getLast?_append]
    cases hgl : l2.getLast? with
    | none => exact absurd (List.getLast?_eq_none_iff.mp hgl) h
    | some d => rfl
  have hlasti : ∀ c, ("プロンプト修正 " ++ p ++ "：" ++ i).data.getLast? = some c →
      (isWs c = false ∧ closeBrackets.contains c = false) := by
    intro c hc
    rw [String.data_append, horn _ _ hine] at hc
    exact hil c hc
  have hnorm : normalizeCmdText ("プロンプト修正 " ++ p ++ "：" ++ i) =
      "プロンプト修正 " ++ p ++ "：" ++ i := by
    refine normalizeCmdText_eq_self ?_ hlasti
    intro c hc
    rw [hdata] at hc
    simp only [List.head?_cons, Option.some.injEq] at hc
    rw [← hc]
    exact ⟨by decide, by decide⟩
  have hpd7 : (pyDrop 7 ("プロンプト修正 " ++ p ++ "：" ++ i)).data =
      ' ' :: (p.data ++ '：' :: i.data) := by
    show (("プロンプト修正 " ++ p ++ "：" ++ i).data.drop 7) = _
    rw [hdata]
    rfl
  have hheadp : ∀ c, (p.data ++ '：' :: i.data).head? = some c → isWs c = false := by
    intro c hc
    cases hpdata : p.data with
    | nil => exact absurd hpdata hpne
    | cons a r =>
      rw [hpdata] at hc
      simp only [List.cons_append, List.head?_cons, Option.some.injEq] at hc
      rw [← hc]
      exact (idClean_spec (hpc a (by rw [hpdata]; exact List.mem_cons_self a r))).1
  have hparts : pyStrip (pyDrop 7 ("プロンプト修正 " ++ p ++ "：" ++ i)) =
      String.mk (p.data ++ '：' :: i.data) := by
    rw [pyStrip, hpd7]
    rw [show stripLWhile isWs (' ' :: (p.data ++ '：' :: i.data)) =
        stripLWhile isWs (p.data ++ '：' :: i.data) from by
      rw [stripLWhile, stripLWhile, List.dropWhile_cons, if_pos (by decide)]]
    rw [stripLWhile_eq_self hheadp]
    rw [stripRWhile_eq_self (by
      intro c hc
      rw [List.append_cons, horn _ _ hine] at hc
      exact (hil c hc).1)]
  have hcont : pyContains (String.mk (p.data ++ '：' :: i.data)) "：" = true := by
    rw [pyContains]
    exact listIsInfix_singleton p.data i.data
  have hpnecolon : ∀ x ∈ p.data, ¬ x = '：' := fun x hx => (idClean_spec (hpc x hx)).2.2.1
  have hsplit : splitOnceChar '：' (String.mk (p.data ++ '：' :: i.data)).data =
      (p.data, some i.data) := splitOnceChar_append hpnecolon i.data
  have hsplit2 : pySplitOnce '：' (String.mk (p.data ++ '：' :: i.data)) =
      (String.mk p.data, some (String.mk i.data)) := by
    unfold pySplitOnce
    rw [hsplit]
    exact rfl
  have hid : pyStrip (String.mk p.data) = p :=
    pyStrip_of_idClean (show ∀ c ∈ (String.mk p.data).data, idClean c = true from hpc)
  have hinstr : pyStrip (String.mk i.data) = i :=
    pyStrip_eq_self hih (fun c hc => (hil c hc).1)
  simp only [handle_approval_command, hnorm]
  rw [if_neg (by
    simp only [Bool.and_eq_true, Bool.or_eq_true]
    intro hcon
    rcases hcon.1 with h | h
    · exact absurd h (by rw [pyStartsWith_head_ne hdata rfl (by decide)]; simp)
    · exact absurd h (by rw [pyStartsWith_head_ne hdata rfl (by decide)]; simp))]
  rw [if_neg (string_ne_of_head hdata rfl (by decide))]
  rw [if_neg (by
    simp only [Bool.or_eq_true]
    intro hcon
    rcases hcon with h | h <;>
      exact absurd h (by rw [pyStartsWith_head_ne hdata rfl (by decide)]; simp))]
  rw [if_neg (by
    simp only [Bool.or_eq_true]
    intro hcon
    rcases hcon with h | h <;>
      exact absurd h (by rw [pyStartsWith_head_ne hdata rfl (by decide)]; simp))]
  rw [if_neg (by
    simp only [Bool.and_eq_true, Bool.or_eq_true]
    intro hcon
    rcases hcon.1 with h | h <;>
      exact absurd h (by rw [pyStartsWith_head_ne hdata rfl (by decide)]; simp))]
  rw [if_neg (by
    simp only [Bool.and_eq_true, Bool.or_eq_true]
    intro hcon
    rcases hcon.1 with h | h <;>
      exact absurd h (by rw [pyStartsWith_head_ne hdata rfl (by decide)]; simp))]
  rw [if_pos (by
    rw [show pyStartsWith ("プロンプト修正 " ++ p ++ "：" ++ i) "プロンプト修正 " = true from by
      rw [pyStartsWith, hdata]
      simp [List.isPrefixOf]]
    simp)]
  rw [hparts]
  rw [if_pos (by rw [hcont]; simp)]
  rw [if_pos hcont]
  rw [hsplit2]
  rw [hid]
  rw [show Option.getD ((String.mk p.data, some (String.mk i.data)).2) "" =
      String.mk i.data from rfl]
  rw [hinstr]
  simp [beq_empty_eq_false hpne, beq_empty_eq_false hine]

theorem headNotWs_spec {s : String} (h : headNotWs s = true) :
    ∀ c, s.data.head? = some c → isWs c = false := by
  intro c hc
  simp only [headNotWs, hc] at h
  simpa using h

theorem lastClean_spec {s : String} (h : lastClean s = true) :
    ∀ c, s.data.getLast? = some c →
      (isWs c = false ∧ closeBrackets.contains c = false) := by
  intro c hc
  simp only [lastClean, hc, Bool.and_eq_true] at h
  exact ⟨by simpa using h.1, by simpa using h.2⟩

/-- C6 counterexample: the AI revision oracle returns a draft ending in
a newline.  プロンプト修正 stores and records that text verbatim, but
the follow-up 修正 command with the very same text strips it (the
command text is normalized and the content part is `strip()`ped), so the
final stored draft differs from the revised text of the revise step. -/
theorem c6_counterexample :
    (handle_approval_command aiTrailingNewline samplePendingStore [] []
        "プロンプト修正 ab12cd34：丁寧に").1 = true ∧
    ((handle_approval_command aiTrailingNewline samplePendingStore [] []
        "プロンプト修正 ab12cd34：丁寧に").2.2.1).map (fun r => r.revised_response) =
      ["了解しました\n"] ∧
    (handle_approval_command aiTrailingNewline
        (handle_approval_command aiTrailingNewline samplePendingStore [] []
          "プロンプト修正 ab12cd34：丁寧に").2.1
        (handle_approval_command aiTrailingNewline samplePendingStore [] []
          "プロンプト修正 ab12cd34：丁寧に").2.2.1
        [] "修正 ab12cd34\n了解しました\n").1 = true ∧
    (get_pending_message (handle_approval_command aiTrailingNewline
        (handle_approval_command aiTrailingNewline samplePendingStore [] []
          "プロンプト修正 ab12cd34：丁寧に").2.1
        (handle_approval_command aiTrailingNewline samplePendingStore [] []
          "プロンプト修正 ab12cd34：丁寧に").2.2.1
        [] "修正 ab12cd34\n了解しました\n").2.1 "ab12cd34").map
      (fun x => x.response_text) = some "了解しました" ∧
    ¬ ("了解しました" = "了解しました\n") := by
  decide

/-- C6 (amended): for a pending id `p` whose characters survive command
normalization and a revised text `t` that `strip()` leaves unchanged,
プロンプト修正 followed by 修正 with the same text `t` is handled by
both commands, appends exactly one revision record (from the revise
step, none from the direct edit), and leaves the row pending with draft
`t`.  (Without the strip-clean condition on `t` the stored draft is
`t.strip()`, not `t`: see the counterexample.) -/
theorem c6_revise_then_direct_edit (ai : String → String) (ps : List PendingMsg)
    (revs : List RevisionRec) (notes : List String) (p i t : String) (m : PendingMsg)
    (hu : uniqueIds ps) (hm : get_pending_message ps p = some m)
    (hpne : p.data ≠ []) (hpc : ∀ c ∈ p.data, idClean c = true)
    (hine : i.data ≠ []) (hih : headNotWs i = true) (hil : lastClean i = true)
    (htne : t.data ≠ []) (hth : headNotWs t = true) (htl : lastClean t = true)
    (hai : ai (revisionPrompt i (get_notes_as_markdown notes) m.response_text) = t) :
    (handle_approval_command ai ps revs notes ("プロンプト修正 " ++ p ++ "：" ++ i)).1 = true ∧
    (handle_approval_command ai ps revs notes ("プロンプト修正 " ++ p ++ "：" ++ i)).2.2.1 =
      revs ++ [{ original_response := m.response_text, revision_instruction := i,
                 revised_response := t,
                 customer_message := pyTake 1000 m.original_message,
                 customer_name := m.customer_name, company_name := m.company_name,
                 pending_id := p }] ∧
    (handle_approval_command ai
      (handle_approval_command ai ps revs notes ("プロンプト修正 " ++ p ++ "：" ++ i)).2.1
      (handle_approval_command ai ps revs notes ("プロンプト修正 " ++ p ++ "：" ++ i)).2.2.1
      notes ("修正 " ++ p ++ "\n" ++ t)).1 = true ∧
    (handle_approval_command ai
      (handle_approval_command ai ps revs notes ("プロンプト修正 " ++ p ++ "：" ++ i)).2.1
      (handle_approval_command ai ps revs notes ("プロンプト修正 " ++ p ++ "：" ++ i)).2.2.1
      notes ("修正 " ++ p ++ "\n" ++ t)).2.2.1 =
      (handle_approval_command ai ps revs notes ("プロンプト修正 " ++ p ++ "：" ++ i)).2.2.1 ∧
    get_pending_message (handle_approval_command ai
      (handle_approval_command ai ps revs notes ("プロンプト修正 " ++ p ++ "：" ++ i)).2.1
      (handle_approval_command ai ps revs notes ("プロンプト修正 " ++ p ++ "：" ++ i)).2.2.1
      notes ("修正 " ++ p ++ "\n" ++ t)).2.1 p =
      some { m with response_text := t } ∧
    m.status = "pending" := by
  have hihp := headNotWs_spec hih
  have hilp := lastClean_spec hil
  have hthp := headNotWs_spec hth
  have htlp := lastClean_spec htl
  have h1 := parse_prompt_edit_cmd ai ps revs notes p i hpne hpc hine hihp hilp
  have hpe : promptEditCmd ai ps revs notes p i =
      ((update_pending_response ps p t).2,
       revs ++ [{ original_response := m.response_text, revision_instruction := i,
                  revised_response := t,
                  customer_message := pyTake 1000 m.original_message,
                  customer_name := m.customer_name, company_name := m.company_name,
                  pending_id := p }],
       [.replyToOperator (revisedReplyText t p)]) := by
    simp only [promptEditCmd, hm, hai]
  have hr := get_pending_after_update_response hu hm t
  have h2 := parse_direct_edit_cmd ai (update_pending_response ps p t).2
      (revs ++ [{ original_response := m.response_text, revision_instruction := i,
                  revised_response := t,
                  customer_message := pyTake 1000 m.original_message,
                  customer_name := m.customer_name, company_name := m.company_name,
                  pending_id := p }]) notes p t hpne hpc htne hthp htlp
  have hde : directEditCmd (update_pending_response ps p t).2 p t =
      ((update_pending_response (update_pending_response ps p t).2 p t).2,
       [.replyToOperator (revisedReplyText t p)]) := by
    simp only [directEditCmd, hr.2.1]
  have hr2 := get_pending_after_update_response hr.2.2 hr.2.1 t
  refine ⟨by rw [h1], ?_, ?_, ?_, ?_, (getByStatus_mem hm).2.2⟩
  · rw [h1]
    simp only [hpe]
  · rw [h1]
    simp only [hpe]
    rw [h2]
  · rw [h1]
    simp only [hpe]
    rw [h2]
  · rw [h1]
    simp only [hpe]
    rw [h2]
    simp only [hde]
    rw [hr2.2.1]

/-- C6 witness: the round trip on the sample store with a strip-clean
revised text ends with draft equal to that text. -/
theorem c6_revise_then_direct_edit_witness :
    uniqueIds samplePendingStore ∧
    get_pending_message (handle_approval_command aiNoNewline
        (handle_approval_command aiNoNewline samplePendingStore [] []
          ("プロンプト修正 " ++ "ab12cd34" ++ "：" ++ "丁寧に")).2.1
        (handle_approval_command aiNoNewline samplePendingStore [] []
          ("プロンプト修正 " ++ "ab12cd34" ++ "：" ++ "丁寧に")).2.2.1
        [] ("修正 " ++ "ab12cd34" ++ "\n" ++ "了解しました")).2.1 "ab12cd34" =
      some { samplePending with response_text := "了解しました" } :=
  ⟨by decide,
   (c6_revise_then_direct_edit aiNoNewline samplePendingStore [] [] "ab12cd34" "丁寧に"
     "了解しました" samplePending (by decide) rfl (by decide) (by decide) (by decide)
     (by decide) (by decide) (by decide) (by decide) (by decide) rfl).2.2.2.2.1⟩

end AIA
